import Mathlib

/-!
Verification of the Tufting Yarn Calculator core algorithms.

This file gives a shallow embedding, in Lean 4, of the two computation
cores of the repository:

* `imageProcessing.js` — perceptual color clustering (`analyzeImage` and
  the sRGB → CIE Lab conversion chain with the ΔE76 metric), including the
  variant of the file that also produces a per-pixel label map;
* `calculation.js` — yarn constants (`computeYarnConstants`) and the
  per-cluster yarn application (`computeYarnForClusters`), together with
  the price-per-kg resolution performed by the caller in `app.js`.

JavaScript numbers are idealized as exact reals (for the clustering and
Lab geometry, which involves `Math.pow`, `Math.cbrt` and `Math.sqrt`) or
exact rationals (for the purely rational yarn arithmetic).  Where a claim
hinges on non-finite JavaScript numbers, an explicit extended-number type
`JSNum` with IEEE-style `NaN`/`Infinity` propagation is used instead.
Theorems about the embedded definitions settle the specification claims.
-/

namespace TuftCalc

/-- An RGBA pixel sample: four 8-bit channels, as read from `ImageData.data`
four bytes at a time in `analyzeImage`. -/
structure Pixel where
  r : ℕ
  g : ℕ
  b : ℕ
  a : ℕ
  deriving Repr, DecidableEq

/-- A point of CIE L*a*b* space (the `[L, a, b]` arrays of the source). -/
structure Lab where
  l : ℝ
  a : ℝ
  b : ℝ

noncomputable section

/-- JavaScript `Math.cbrt`: sign-preserving real cube root. -/
def cbrt (x : ℝ) : ℝ :=
  if 0 ≤ x then x ^ ((1 : ℝ) / 3) else -((-x) ^ ((1 : ℝ) / 3))

/-- `srgbToLinear` of `imageProcessing.js`: sRGB channel (0..255) to a
linearized value, with the ≤ 0.04045 linear branch. -/
def srgbToLinear (c : ℝ) : ℝ :=
  let c' := c / 255
  if c' ≤ 0.04045 then c' / 12.92 else ((c' + 0.055) / 1.055) ^ (2.4 : ℝ)

/-- `rgbToXyz` of `imageProcessing.js`: linearized sRGB to XYZ, D65 matrix. -/
def rgbToXyz (r g b : ℝ) : ℝ × ℝ × ℝ :=
  let R := srgbToLinear r
  let G := srgbToLinear g
  let B := srgbToLinear b
  (R * 0.4124564 + G * 0.3575761 + B * 0.1804375,
   R * 0.2126729 + G * 0.7151522 + B * 0.0721750,
   R * 0.0193339 + G * 0.1191920 + B * 0.9503041)

/-- `fLab` of `imageProcessing.js`: the CIELAB companding function with
`delta = 6/29`, cube root above `delta^3` and linear below. -/
def fLab (t : ℝ) : ℝ :=
  let delta : ℝ := 6 / 29
  if t > delta ^ (3 : ℕ) then cbrt t else t / (3 * delta * delta) + 4 / 29

/-- `xyzToLab` of `imageProcessing.js`: XYZ to CIELAB with the D65
reference white `(0.95047, 1.00000, 1.08883)`. -/
def xyzToLab (x y z : ℝ) : Lab :=
  let Xn : ℝ := 0.95047
  let Yn : ℝ := 1.00000
  let Zn : ℝ := 1.08883
  let fx := fLab (x / Xn)
  let fy := fLab (y / Yn)
  let fz := fLab (z / Zn)
  ⟨116 * fy - 16, 500 * (fx - fy), 200 * (fy - fz)⟩

/-- `rgbToLab` of `imageProcessing.js`: the full sRGB → XYZ → Lab chain. -/
def rgbToLab (r g b : ℝ) : Lab :=
  let xyz := rgbToXyz r g b
  xyzToLab xyz.1 xyz.2.1 xyz.2.2

/-- `deltaE76` of `imageProcessing.js`: plain Euclidean distance in Lab
space (the CIE76 color difference, no weighting terms). -/
def deltaE76 (lab1 lab2 : Lab) : ℝ :=
  let dL := lab1.l - lab2.l
  let da := lab1.a - lab2.a
  let db := lab1.b - lab2.b
  Real.sqrt (dL * dL + da * da + db * db)

end

attribute [local instance] Classical.propDecidable

/-- The mutable cluster record accumulated during the scan of
`analyzeImage`: running pixel count, running RGB and Lab channel sums, and
the running Lab mean used as the centroid for admission decisions. -/
structure Cluster where
  count : ℕ
  rgbSum : ℝ × ℝ × ℝ
  labSum : Lab
  labMean : Lab

noncomputable section

/-- The inner `for (let c = 0; ...)` loop of `analyzeImage`: the running
best `(bestIdx, bestDist)` pair, with `none` standing for the initial
`(-1, Infinity)` state (any distance beats `Infinity`), updated exactly
when `d < bestDist`. -/
def findBestAux (lab : Lab) : List Cluster → ℕ → Option (ℕ × ℝ) → Option (ℕ × ℝ)
  | [], _, best => best
  | c :: cs, i, best =>
    let d := deltaE76 lab c.labMean
    match best with
    | none => findBestAux lab cs (i + 1) (some (i, d))
    | some (j, bd) =>
        if d < bd then findBestAux lab cs (i + 1) (some (i, d))
        else findBestAux lab cs (i + 1) (some (j, bd))

/-- Nearest-cluster search of `analyzeImage` over the whole cluster list. -/
def findBest (lab : Lab) (cs : List Cluster) : Option (ℕ × ℝ) :=
  findBestAux lab cs 0 none

end

/-- In-place update of the cluster at an index (the `clusters[bestIdx]`
mutation of the source). -/
def modifyAt (f : Cluster → Cluster) : ℕ → List Cluster → List Cluster
  | _, [] => []
  | 0, c :: cs => f c :: cs
  | i + 1, c :: cs => c :: modifyAt f i cs

noncomputable section

/-- Admission of a pixel into an existing cluster: bump the count, add the
RGB and Lab channels to the running sums, and recompute `labMean` from the
updated sums immediately. -/
def admitPixel (c : Cluster) (p : Pixel) (lab : Lab) : Cluster :=
  let count' := c.count + 1
  { count := count'
    rgbSum := (c.rgbSum.1 + p.r, c.rgbSum.2.1 + p.g, c.rgbSum.2.2 + p.b)
    labSum := ⟨c.labSum.l + lab.l, c.labSum.a + lab.a, c.labSum.b + lab.b⟩
    labMean := ⟨(c.labSum.l + lab.l) / count', (c.labSum.a + lab.a) / count',
                (c.labSum.b + lab.b) / count'⟩ }

/-- A fresh cluster seeded by a single pixel (the `clusters.push({...})`
branch of the source). -/
def seedCluster (p : Pixel) (lab : Lab) : Cluster :=
  { count := 1
    rgbSum := ((p.r : ℝ), (p.g : ℝ), (p.b : ℝ))
    labSum := lab
    labMean := lab }

/-- One iteration of the pixel scan of `analyzeImage`: skip the pixel when
`a <= alphaThreshold`; otherwise convert to Lab, find the nearest cluster
centroid, and admit when `bestIdx >= 0 && bestDist <= deltaEThreshold`,
else append a fresh single-pixel cluster. -/
def scanStep (alphaThreshold deltaEThreshold : ℝ) (cs : List Cluster)
    (p : Pixel) : List Cluster :=
  if (p.a : ℝ) ≤ alphaThreshold then cs
  else
    let lab := rgbToLab p.r p.g p.b
    match findBest lab cs with
    | some (i, d) =>
        if d ≤ deltaEThreshold then modifyAt (fun c => admitPixel c p lab) i cs
        else cs ++ [seedCluster p lab]
    | none => cs ++ [seedCluster p lab]

/-- The full pixel scan of `analyzeImage`, in raster (row-major) order. -/
def scanClusters (alphaThreshold deltaEThreshold : ℝ)
    (data : List Pixel) : List Cluster :=
  data.foldl (scanStep alphaThreshold deltaEThreshold) []

/-- The `pixelsValid` counter of `analyzeImage`: pixels whose alpha channel
exceeds the threshold. -/
def validCount (alphaThreshold : ℝ) (data : List Pixel) : ℕ :=
  (data.filter fun p => decide (¬ (p.a : ℝ) ≤ alphaThreshold)).length

end

/-- `Math.round`: round half toward positive infinity. -/
noncomputable def jsRound (x : ℝ) : ℤ := ⌊x + 1 / 2⌋

/-- Two lowercase hexadecimal digits of `v.toString(16).padStart(2, '0')`
(the values fed in by the source are nonnegative channel means). -/
def rgbToHexDigits (v : ℤ) : String :=
  let s := String.mk (Nat.toDigits 16 v.toNat)
  if s.length < 2 then "0" ++ s else s

/-- `rgbToHex` of `imageProcessing.js`. -/
def rgbToHex (r g b : ℤ) : String :=
  "#" ++ rgbToHexDigits r ++ rgbToHexDigits g ++ rgbToHexDigits b

/-- The derived per-cluster view produced after the scan: representative
color, hex string, pixel count, percentage of valid pixels, physical area. -/
structure DetailedCluster where
  rgb : ℤ × ℤ × ℤ
  hex : String
  pixelCount : ℕ
  percentValid : ℝ
  areaCm2 : ℝ

/-- The `clusters.map(...)` step of `analyzeImage` building the detailed
per-cluster records. -/
noncomputable def detailClusters (pixelsValid : ℕ) (areaPerPixel : ℝ)
    (cs : List Cluster) : List DetailedCluster :=
  cs.map fun c =>
    let rgb : ℤ × ℤ × ℤ :=
      (jsRound (c.rgbSum.1 / c.count), jsRound (c.rgbSum.2.1 / c.count),
       jsRound (c.rgbSum.2.2 / c.count))
    { rgb := rgb
      hex := rgbToHex rgb.1 rgb.2.1 rgb.2.2
      pixelCount := c.count
      percentValid := if 0 < pixelsValid then 100 * c.count / pixelsValid else 0
      areaCm2 := c.count * areaPerPixel }

/-- The `totals` record of `analyzeImage`.  The degenerate early return of
the source constructs an object carrying only `pixelsTotal`, `pixelsValid`
and `areaCm2`; the remaining fields are `Option`-typed to reflect that they
are absent (`undefined`) there. -/
structure Totals where
  pixelsTotal : ℕ
  pixelsValid : ℕ
  pixelsKept : Option ℕ
  areaCm2 : ℝ
  boxAreaCm2 : Option ℝ
  areaPerPixel : Option ℝ
  droppedCount : Option ℕ

/-- The result of `analyzeImage`; `dropped` is absent on the degenerate
early return. -/
structure AnalyzeResult where
  clusters : List DetailedCluster
  dropped : Option (List DetailedCluster)
  totals : Totals

/-- The clustering parameter object of `analyzeImage` (defaults in the
source: alphaThreshold 10, tolerance 40, minAreaPercent 0.5, rug sizes 0). -/
structure AnalyzeParams where
  alphaThreshold : ℝ
  tolerance : ℝ
  minAreaPercent : ℝ
  rugWidthCm : ℝ
  rugHeightCm : ℝ

/-- The tolerance → ΔE admission threshold mapping of `analyzeImage`:
`deltaEMin + (deltaEMax - deltaEMin) * (tolerance / 100)` with the strict
bound 3 and the loose bound 50. -/
noncomputable def deltaEThresholdOf (tolerance : ℝ) : ℝ :=
  3 + (50 - 3) * (tolerance / 100)

/-- `boxAreaCm2` of `analyzeImage`: `Math.max(0, rugWidthCm) * Math.max(0,
rugHeightCm)`. -/
noncomputable def boxAreaOf (ps : AnalyzeParams) : ℝ :=
  max 0 ps.rugWidthCm * max 0 ps.rugHeightCm

/-- `areaPerPixel` of `analyzeImage`: physical box area divided by the
total pixel count (0 when there are no pixels). -/
noncomputable def areaPerPixelOf (pixelsTotal : ℕ) (ps : AnalyzeParams) : ℝ :=
  if 0 < pixelsTotal then boxAreaOf ps / (pixelsTotal : ℝ) else 0

/-- Every cluster created by the scan of `analyzeImage`, in creation order,
in its detailed (post-scan) form — the `clustersDetailed` array of the
source, before the kept/dropped filtering. -/
noncomputable def allDetailed (width height : ℕ) (data : List Pixel)
    (ps : AnalyzeParams) : List DetailedCluster :=
  detailClusters (validCount ps.alphaThreshold data)
    (areaPerPixelOf (width * height) ps)
    (scanClusters ps.alphaThreshold (deltaEThresholdOf ps.tolerance) data)

/-- The kept-cluster filter of `analyzeImage`: percent of valid pixels at
least `minAreaPercent`. -/
noncomputable def keptOf (ps : AnalyzeParams) (ds : List DetailedCluster) :
    List DetailedCluster :=
  ds.filter fun c => decide (ps.minAreaPercent ≤ c.percentValid)

/-- The dropped-cluster list of `analyzeImage` (complement of `keptOf`). -/
noncomputable def droppedOf (ps : AnalyzeParams) (ds : List DetailedCluster) :
    List DetailedCluster :=
  ds.filter fun c => decide (¬ ps.minAreaPercent ≤ c.percentValid)

/-- The `kept.sort((a, b) => b.pixelCount - a.pixelCount)` step: stable
sort by descending pixel count. -/
noncomputable def sortKept (ds : List DetailedCluster) : List DetailedCluster :=
  ds.mergeSort fun a b => decide (b.pixelCount ≤ a.pixelCount)

/-- `analyzeImage` of `imageProcessing.js` (the variant filtering clusters
by `minAreaPercent`): early empty return for a zero-sized raster, pixel
scan, area mapping, detailed clusters, kept/dropped filtering, sort of the
kept clusters by descending pixel count (stable), and totals. -/
noncomputable def analyzeImage (width height : ℕ) (data : List Pixel)
    (ps : AnalyzeParams) : AnalyzeResult :=
  if width = 0 ∨ height = 0 then
    { clusters := []
      dropped := none
      totals := { pixelsTotal := 0, pixelsValid := 0, pixelsKept := none
                  areaCm2 := 0, boxAreaCm2 := none, areaPerPixel := none
                  droppedCount := none } }
  else
    let pixelsTotal := width * height
    let pixelsValid := validCount ps.alphaThreshold data
    let areaPerPixel := areaPerPixelOf pixelsTotal ps
    let clustersDetailed := allDetailed width height data ps
    let kept := keptOf ps clustersDetailed
    let dropped := droppedOf ps clustersDetailed
    let keptSorted := sortKept kept
    { clusters := keptSorted
      dropped := some dropped
      totals := { pixelsTotal := pixelsTotal
                  pixelsValid := pixelsValid
                  pixelsKept := some ((kept.map DetailedCluster.pixelCount).foldl (· + ·) 0)
                  areaCm2 := (keptSorted.map DetailedCluster.areaCm2).foldl (· + ·) 0
                  boxAreaCm2 := some (boxAreaOf ps)
                  areaPerPixel := some areaPerPixel
                  droppedCount := some dropped.length } }

/-- The minimum of a list of distances (`none` when no cluster exists). -/
noncomputable def minDist : List ℝ → Option ℝ
  | [] => none
  | d :: ds => some ((minDist ds).elim d (fun m => min d m))

/-- First index of a list holding a given value (the index of the nearest
cluster, ties resolved toward the earliest-created cluster). -/
noncomputable def firstIdxAt : List ℝ → ℝ → ℕ
  | [], _ => 0
  | d :: ds, m => if d = m then 0 else firstIdxAt ds m + 1

/-- One scan iteration as claim C1 states it: skip a pixel whose alpha is at
most the threshold; otherwise convert it to CIE Lab, take the ΔE76 distance
to every existing cluster's current `labMean`, admit into the nearest
cluster exactly when the minimum distance is at most
`3 + (50 - 3) * tolerance / 100` (updating that cluster's running sums and
mean immediately), and otherwise — including when no clusters exist —
append a new cluster seeded by the single pixel. -/
noncomputable def specStep (alphaThreshold tolerance : ℝ) (cs : List Cluster)
    (p : Pixel) : List Cluster :=
  if (p.a : ℝ) ≤ alphaThreshold then cs
  else
    let lab := rgbToLab p.r p.g p.b
    let dists := cs.map fun c => deltaE76 lab c.labMean
    match minDist dists with
    | some m =>
        if m ≤ 3 + (50 - 3) * (tolerance / 100) then
          modifyAt (fun c => admitPixel c p lab) (firstIdxAt dists m) cs
        else cs ++ [seedCluster p lab]
    | none => cs ++ [seedCluster p lab]

theorem findBestAux_some_eq (lab : Lab) : ∀ (cs : List Cluster) (i j : ℕ) (bd : ℝ),
    findBestAux lab cs i (some (j, bd)) =
      match minDist (cs.map fun c => deltaE76 lab c.labMean) with
      | none => some (j, bd)
      | some m =>
          if m < bd then
            some (i + firstIdxAt (cs.map fun c => deltaE76 lab c.labMean) m, m)
          else some (j, bd)
  | [], i, j, bd => by simp [findBestAux, minDist]
  | c :: cs, i, j, bd => by
    rw [findBestAux]
    rcases h' : minDist (cs.map fun c => deltaE76 lab c.labMean) with _ | m'
    · rcases lt_or_le (deltaE76 lab c.labMean) bd with hlt | hle
      · rw [if_pos hlt, findBestAux_some_eq lab cs (i + 1) i (deltaE76 lab c.labMean)]
        simp [minDist, h', firstIdxAt, hlt]
      · rw [if_neg (not_lt.mpr hle), findBestAux_some_eq lab cs (i + 1) j bd]
        simp [minDist, h', firstIdxAt, not_lt.mpr hle]
    · rcases lt_or_le (deltaE76 lab c.labMean) bd with hlt | hle
      · rw [if_pos hlt, findBestAux_some_eq lab cs (i + 1) i (deltaE76 lab c.labMean)]
        rcases lt_or_le m' (deltaE76 lab c.labMean) with hm | hm
        · have hmin : min (deltaE76 lab c.labMean) m' = m' := min_eq_right hm.le
          have hne : deltaE76 lab c.labMean ≠ m' := (ne_of_gt hm)
          simp only [minDist, h', Option.elim, hmin, firstIdxAt]
          rw [if_pos hm, if_pos (hm.trans hlt), if_neg hne]
          simp [Nat.add_comm, Nat.add_assoc, Nat.add_left_comm]
        · have hmin : min (deltaE76 lab c.labMean) m' = deltaE76 lab c.labMean :=
            min_eq_left hm
          simp only [minDist, h', Option.elim, hmin, firstIdxAt]
          rw [if_neg (not_lt.mpr hm), if_pos hlt]
          simp
      · rw [if_neg (not_lt.mpr hle), findBestAux_some_eq lab cs (i + 1) j bd]
        rcases lt_or_le m' bd with hm | hm
        · have hmd : m' < deltaE76 lab c.labMean := hm.trans_le hle
          have hmin : min (deltaE76 lab c.labMean) m' = m' := min_eq_right hmd.le
          simp only [minDist, h', Option.elim, hmin, firstIdxAt]
          rw [if_pos hm, if_pos hm, if_neg (ne_of_gt hmd)]
          simp [Nat.add_comm, Nat.add_assoc, Nat.add_left_comm]
        · have hmin : ¬ min (deltaE76 lab c.labMean) m' < bd := by
            rcases min_cases (deltaE76 lab c.labMean) m' with ⟨he, _⟩ | ⟨he, _⟩ <;>
              rw [he]
            · exact not_lt.mpr hle
            · exact not_lt.mpr hm
          simp only [minDist, h', Option.elim]
          rw [if_neg (not_lt.mpr hm), if_neg hmin]

theorem findBest_eq_minDist (lab : Lab) (cs : List Cluster) :
    findBest lab cs =
      match minDist (cs.map fun c => deltaE76 lab c.labMean) with
      | none => none
      | some m => some (firstIdxAt (cs.map fun c => deltaE76 lab c.labMean) m, m) := by
  rcases cs with _ | ⟨c, cs⟩
  · simp [findBest, findBestAux, minDist]
  · rw [findBest, findBestAux, findBestAux_some_eq lab cs 1 0 (deltaE76 lab c.labMean)]
    rcases h' : minDist (cs.map fun c => deltaE76 lab c.labMean) with _ | m'
    · simp [minDist, h', firstIdxAt]
    · rcases lt_or_le m' (deltaE76 lab c.labMean) with hm | hm
      · have hmin : min (deltaE76 lab c.labMean) m' = m' := min_eq_right hm.le
        simp only [minDist, h', Option.elim, hmin, firstIdxAt]
        rw [if_pos hm, if_neg (ne_of_gt hm)]
        simp [Nat.add_comm]
      · have hmin : min (deltaE76 lab c.labMean) m' = deltaE76 lab c.labMean :=
          min_eq_left hm
        simp only [minDist, h', Option.elim, hmin, firstIdxAt]
        rw [if_neg (not_lt.mpr hm)]
        simp

theorem scanStep_eq_specStep (alphaThreshold tolerance : ℝ)
    (cs : List Cluster) (p : Pixel) :
    scanStep alphaThreshold (deltaEThresholdOf tolerance) cs p =
      specStep alphaThreshold tolerance cs p := by
  unfold scanStep specStep deltaEThresholdOf
  rcases Classical.em ((p.a : ℝ) ≤ alphaThreshold) with ha | ha
  · rw [if_pos ha, if_pos ha]
  · rw [if_neg ha, if_neg ha]
    rcases h' : minDist (cs.map fun c =>
        deltaE76 (rgbToLab p.r p.g p.b) c.labMean) with _ | m
    · simp only [findBest_eq_minDist, h']
    · simp only [findBest_eq_minDist, h']

/-- C1: the pixel scan of `analyzeImage` processes the buffer in raster
order by folding, over every pixel, exactly the step claim C1 describes:
pixels with alpha at most `alphaThreshold` are skipped; every other pixel
is converted to CIE Lab and admitted into the cluster whose current
`labMean` is ΔE76-nearest exactly when that minimum distance is at most
`3 + (50 - 3) * tolerance / 100` (the cluster's running sums and mean being
updated immediately), and otherwise — including when no cluster exists
yet — a new single-pixel cluster is appended. -/
theorem analyzeImage_scan_follows_spec (alphaThreshold tolerance : ℝ)
    (data : List Pixel) :
    scanClusters alphaThreshold (deltaEThresholdOf tolerance) data =
      data.foldl (specStep alphaThreshold tolerance) [] ∧
    deltaEThresholdOf tolerance = 3 + (50 - 3) * (tolerance / 100) := by
  constructor
  · unfold scanClusters
    congr 1
    funext cs p
    exact scanStep_eq_specStep alphaThreshold tolerance cs p
  · rfl

/-! ### The yarn application of `calculation.js` over exact reals -/

/-- The constants record consumed by `computeYarnForClusters`. -/
structure YarnConstantsR where
  L_m_per_cm2_single : ℝ
  g_per_m_single : ℝ
  strands : ℝ
  wastage : ℝ

/-- A per-color record pushed by `computeYarnForClusters`: the spread
`...c` of the incoming cluster plus the four derived yarn fields. -/
structure YarnRecord where
  base : DetailedCluster
  yarnLength_m_single : ℝ
  yarnLength_m : ℝ
  yarnWeight_g : ℝ
  yarnWeightWithWaste_g : ℝ

/-- The aggregate totals of `computeYarnForClusters`. -/
structure YarnTotals where
  totalArea_cm2 : ℝ
  totalLength_m : ℝ
  totalWeightWithWaste_g : ℝ

/-- The result of `computeYarnForClusters`. -/
structure YarnResult where
  perColor : List YarnRecord
  totals : YarnTotals

/-- The record built for one cluster inside the loop of
`computeYarnForClusters` (`Number(c.areaCm2 || 0)` is kept as the `if`
mirroring JavaScript falsiness of 0). -/
noncomputable def yarnRecordOf (k : YarnConstantsR) (c : DetailedCluster) :
    YarnRecord :=
  let area := if c.areaCm2 = 0 then 0 else c.areaCm2
  let length_single := area * k.L_m_per_cm2_single
  let length_all := length_single * k.strands
  let weight_g := length_all * k.g_per_m_single
  { base := c
    yarnLength_m_single := length_single
    yarnLength_m := length_all
    yarnWeight_g := weight_g
    yarnWeightWithWaste_g := weight_g * (1 + k.wastage) }

/-- `computeYarnForClusters` of `calculation.js`: one pass over the cluster
list accumulating the per-color records and the three running totals. -/
noncomputable def computeYarnForClusters (clusters : List DetailedCluster)
    (k : YarnConstantsR) : YarnResult :=
  let st := clusters.foldl
    (fun (st : List YarnRecord × ℝ × ℝ × ℝ) (c : DetailedCluster) =>
      let rec' := yarnRecordOf k c
      (st.1 ++ [rec'], st.2.1 + rec'.yarnLength_m,
       st.2.2.1 + rec'.yarnWeightWithWaste_g,
       st.2.2.2 + (if c.areaCm2 = 0 then 0 else c.areaCm2)))
    ([], 0, 0, 0)
  { perColor := st.1
    totals := { totalArea_cm2 := st.2.2.2
                totalLength_m := st.2.1
                totalWeightWithWaste_g := st.2.2.1 } }

theorem computeYarnForClusters_fold (k : YarnConstantsR) :
    ∀ (cs : List DetailedCluster) (st : List YarnRecord × ℝ × ℝ × ℝ),
      cs.foldl
        (fun (st : List YarnRecord × ℝ × ℝ × ℝ) (c : DetailedCluster) =>
          let rec' := yarnRecordOf k c
          (st.1 ++ [rec'], st.2.1 + rec'.yarnLength_m,
           st.2.2.1 + rec'.yarnWeightWithWaste_g,
           st.2.2.2 + (if c.areaCm2 = 0 then 0 else c.areaCm2))) st =
      (st.1 ++ cs.map (yarnRecordOf k),
       st.2.1 + (cs.map fun c => (yarnRecordOf k c).yarnLength_m).sum,
       st.2.2.1 + (cs.map fun c => (yarnRecordOf k c).yarnWeightWithWaste_g).sum,
       st.2.2.2 + (cs.map fun c => if c.areaCm2 = 0 then 0 else c.areaCm2).sum)
  | [], st => by simp
  | c :: cs, st => by
    rw [List.foldl_cons, computeYarnForClusters_fold k cs]
    simp only [Prod.mk.injEq, List.map_cons, List.sum_cons]
    refine ⟨by simp, by ring, by ring, by ring⟩

theorem yarnRecord_base_area (k : YarnConstantsR) (c : DetailedCluster) :
    (if c.areaCm2 = 0 then 0 else c.areaCm2) = (yarnRecordOf k c).base.areaCm2 := by
  rcases Classical.em (c.areaCm2 = 0) with h | h
  · simp [yarnRecordOf, h]
  · simp [yarnRecordOf, h]

/-- C5: the totals are elementwise sums: after every `analyzeImage` call
`totals.areaCm2` is the sum of `areaCm2` over exactly the kept clusters,
and for every cluster list and constants the totals of
`computeYarnForClusters` are the sums, over the per-color records, of the
record's area, `yarnLength_m` and `yarnWeightWithWaste_g` fields. -/
theorem totals_are_componentwise_sums (width height : ℕ) (data : List Pixel)
    (ps : AnalyzeParams) (clusters : List DetailedCluster) (k : YarnConstantsR) :
    (analyzeImage width height data ps).totals.areaCm2 =
      ((analyzeImage width height data ps).clusters.map DetailedCluster.areaCm2).sum ∧
    (computeYarnForClusters clusters k).totals.totalArea_cm2 =
      ((computeYarnForClusters clusters k).perColor.map fun r => r.base.areaCm2).sum ∧
    (computeYarnForClusters clusters k).totals.totalLength_m =
      ((computeYarnForClusters clusters k).perColor.map YarnRecord.yarnLength_m).sum ∧
    (computeYarnForClusters clusters k).totals.totalWeightWithWaste_g =
      ((computeYarnForClusters clusters k).perColor.map
        YarnRecord.yarnWeightWithWaste_g).sum := by
  refine ⟨?_, ?_, ?_, ?_⟩
  · unfold analyzeImage
    rcases Classical.em (width = 0 ∨ height = 0) with h | h
    · rw [if_pos h]; simp
    · rw [if_neg h]
      simp only [List.sum_eq_foldl]
  · unfold computeYarnForClusters
    rw [computeYarnForClusters_fold]
    simp only [List.nil_append, zero_add, List.map_map]
    have hfg : (fun (c : DetailedCluster) => if c.areaCm2 = 0 then 0 else c.areaCm2) =
        ((fun r => YarnRecord.base r |>.areaCm2) ∘ yarnRecordOf k) :=
      funext fun c => yarnRecord_base_area k c
    rw [hfg]
  · unfold computeYarnForClusters
    rw [computeYarnForClusters_fold]
    simp only [List.nil_append, zero_add, List.map_map]
    rfl
  · unfold computeYarnForClusters
    rw [computeYarnForClusters_fold]
    simp only [List.nil_append, zero_add, List.map_map]
    rfl

/-! ### Pixel-count bookkeeping of the scan -/

theorem analyzeImage_eq_main (width height : ℕ) (data : List Pixel)
    (ps : AnalyzeParams) (h : ¬ (width = 0 ∨ height = 0)) :
    analyzeImage width height data ps =
      { clusters := sortKept (keptOf ps (allDetailed width height data ps))
        dropped := some (droppedOf ps (allDetailed width height data ps))
        totals := {
          pixelsTotal := width * height
          pixelsValid := validCount ps.alphaThreshold data
          pixelsKept := some (((keptOf ps (allDetailed width height data ps)).map
            DetailedCluster.pixelCount).foldl (· + ·) 0)
          areaCm2 := ((sortKept (keptOf ps (allDetailed width height data ps))).map
            DetailedCluster.areaCm2).foldl (· + ·) 0
          boxAreaCm2 := some (boxAreaOf ps)
          areaPerPixel := some (areaPerPixelOf (width * height) ps)
          droppedCount := some (droppedOf ps (allDetailed width height data ps)).length } } := by
  unfold analyzeImage
  rw [if_neg h]

theorem minDist_mem : ∀ {ds : List ℝ} {m : ℝ}, minDist ds = some m → m ∈ ds
  | d :: ds, m, h => by
    rcases h' : minDist ds with _ | m'
    · rw [minDist, h'] at h
      simp at h
      simp [h]
    · rw [minDist, h'] at h
      simp only [Option.elim, Option.some.injEq] at h
      rcases min_cases d m' with ⟨he, _⟩ | ⟨he, _⟩

      · rw [he] at h
        simp [h]
      · rw [he] at h
        exact List.mem_cons_of_mem _ (h ▸ minDist_mem h')

theorem firstIdxAt_lt_length : ∀ {ds : List ℝ} {m : ℝ}, m ∈ ds →
    firstIdxAt ds m < ds.length
  | d :: ds, m, h => by
    rw [firstIdxAt]
    rcases Classical.em (d = m) with he | he
    · simp [he]
    · rw [if_neg he]
      have hm : m ∈ ds := by
        rcases List.mem_cons.mp h with h' | h'
        · exact absurd h'.symm he
        · exact h'
      simpa [Nat.succ_lt_succ_iff] using firstIdxAt_lt_length hm

theorem modifyAt_count_sum (p : Pixel) (lab : Lab) :
    ∀ (i : ℕ) (cs : List Cluster), i < cs.length →
      ((modifyAt (fun c => admitPixel c p lab) i cs).map Cluster.count).sum =
        ((cs.map Cluster.count).sum) + 1
  | 0, c :: cs, _ => by simp [modifyAt, admitPixel]; ring
  | i + 1, c :: cs, h => by
    rw [modifyAt]
    simp only [List.map_cons, List.sum_cons]
    rw [modifyAt_count_sum p lab i cs (by simpa [Nat.succ_lt_succ_iff] using h)]
    ring

theorem scanStep_count_sum (alphaThreshold deltaEThreshold : ℝ)
    (cs : List Cluster) (p : Pixel) :
    ((scanStep alphaThreshold deltaEThreshold cs p).map Cluster.count).sum =
      ((cs.map Cluster.count).sum) +
        (if (p.a : ℝ) ≤ alphaThreshold then 0 else 1) := by
  unfold scanStep
  rcases Classical.em ((p.a : ℝ) ≤ alphaThreshold) with ha | ha
  · rw [if_pos ha, if_pos ha]
    simp
  · rw [if_neg ha, if_neg ha]
    rcases h' : minDist (cs.map fun c =>
        deltaE76 (rgbToLab p.r p.g p.b) c.labMean) with _ | m
    · simp only [findBest_eq_minDist, h']
      simp [seedCluster]
    · simp only [findBest_eq_minDist, h']
      rcases Classical.em (m ≤ deltaEThreshold) with hm | hm
      · rw [if_pos hm]
        have hmem := minDist_mem h'
        have hlt : firstIdxAt (cs.map fun c =>
            deltaE76 (rgbToLab p.r p.g p.b) c.labMean) m < cs.length := by
          simpa using firstIdxAt_lt_length hmem
        exact modifyAt_count_sum p _ _ cs hlt
      · rw [if_neg hm]
        simp [seedCluster]

theorem scanClusters_count_sum (alphaThreshold deltaEThreshold : ℝ) :
    ∀ (data : List Pixel) (cs : List Cluster),
      ((data.foldl (scanStep alphaThreshold deltaEThreshold) cs).map
        Cluster.count).sum =
        ((cs.map Cluster.count).sum) + validCount alphaThreshold data
  | [], cs => by simp [validCount]
  | p :: data, cs => by
    rw [List.foldl_cons,
      scanClusters_count_sum alphaThreshold deltaEThreshold data]
    rw [scanStep_count_sum]
    unfold validCount
    rcases Classical.em ((p.a : ℝ) ≤ alphaThreshold) with ha | ha
    · simp [List.filter_cons, ha]
    · have ha' : alphaThreshold < (p.a : ℝ) := not_le.mp ha
      simp [List.filter_cons, ha, ha']
      omega

theorem detailClusters_map_pixelCount (pixelsValid : ℕ) (areaPerPixel : ℝ)
    (cs : List Cluster) :
    (detailClusters pixelsValid areaPerPixel cs).map DetailedCluster.pixelCount =
      cs.map Cluster.count := by
  unfold detailClusters
  rw [List.map_map]
  rfl

theorem detailClusters_map_percent (pixelsValid : ℕ) (areaPerPixel : ℝ)
    (cs : List Cluster) :
    (detailClusters pixelsValid areaPerPixel cs).map DetailedCluster.percentValid =
      cs.map fun c =>
        if 0 < pixelsValid then 100 * (c.count : ℝ) / pixelsValid else 0 := by
  unfold detailClusters
  rw [List.map_map]
  rfl

theorem sum_map_scale (a b : ℝ) : ∀ (ds : List ℝ),
    (ds.map fun x => a * x / b).sum = a * ds.sum / b
  | [] => by simp
  | x :: ds => by
    simp only [List.map_cons, List.sum_cons, sum_map_scale a b ds]
    ring

theorem sum_map_count_cast : ∀ (cs : List Cluster),
    (cs.map fun c => (c.count : ℝ)).sum = ((cs.map Cluster.count).sum : ℕ)
  | [] => by simp
  | c :: cs => by
    simp [sum_map_count_cast cs]

theorem kept_dropped_split (ps : AnalyzeParams) (ds : List DetailedCluster) :
    (keptOf ps ds ++ droppedOf ps ds).Perm ds := by
  unfold keptOf droppedOf
  have h : (fun c : DetailedCluster =>
      decide (¬ ps.minAreaPercent ≤ c.percentValid)) = fun c =>
      !(decide (ps.minAreaPercent ≤ c.percentValid)) := by
    funext c
    exact decide_not
  rw [h]
  exact List.filter_append_perm _ ds

/-- C8: on a non-degenerate raster, the kept and dropped lists partition
all created clusters; kept plus dropped pixel counts sum to
`totals.pixelsValid`; and, when any pixel is valid, the `percentValid`
values over kept and dropped together sum to 100. -/
theorem kept_dropped_partition (width height : ℕ) (data : List Pixel)
    (ps : AnalyzeParams) (hw : width ≠ 0) (hh : height ≠ 0) :
    ∃ dr, (analyzeImage width height data ps).dropped = some dr ∧
      ((analyzeImage width height data ps).clusters ++ dr).Perm
        (allDetailed width height data ps) ∧
      ((analyzeImage width height data ps).clusters.map
          DetailedCluster.pixelCount).sum +
        (dr.map DetailedCluster.pixelCount).sum =
        (analyzeImage width height data ps).totals.pixelsValid ∧
      (0 < (analyzeImage width height data ps).totals.pixelsValid →
        ((analyzeImage width height data ps).clusters.map
            DetailedCluster.percentValid).sum +
          (dr.map DetailedCluster.percentValid).sum = 100) := by
  have hmain := analyzeImage_eq_main width height data ps (by
    rintro (h | h)
    · exact hw h
    · exact hh h)
  rw [hmain]
  refine ⟨droppedOf ps (allDetailed width height data ps), rfl, ?_, ?_, ?_⟩
  · have hsort : (sortKept (keptOf ps (allDetailed width height data ps))).Perm
        (keptOf ps (allDetailed width height data ps)) :=
      List.mergeSort_perm _ _
    exact (hsort.append_right _).trans (kept_dropped_split ps _)
  · have hperm : ((sortKept (keptOf ps (allDetailed width height data ps)) ++
        droppedOf ps (allDetailed width height data ps)).map
          DetailedCluster.pixelCount).Perm
        ((allDetailed width height data ps).map DetailedCluster.pixelCount) := by
      refine List.Perm.map _ ?_
      have hsort : (sortKept (keptOf ps (allDetailed width height data ps))).Perm
          (keptOf ps (allDetailed width height data ps)) :=
        List.mergeSort_perm _ _
      exact (hsort.append_right _).trans (kept_dropped_split ps _)
    have hsum := hperm.sum_eq
    rw [List.map_append, List.sum_append] at hsum
    rw [hsum]
    unfold allDetailed
    rw [detailClusters_map_pixelCount]
    simpa using scanClusters_count_sum ps.alphaThreshold
      (deltaEThresholdOf ps.tolerance) data []
  · intro hpv
    simp only at hpv
    have hperm : ((sortKept (keptOf ps (allDetailed width height data ps)) ++
        droppedOf ps (allDetailed width height data ps)).map
          DetailedCluster.percentValid).Perm
        ((allDetailed width height data ps).map DetailedCluster.percentValid) := by
      refine List.Perm.map _ ?_
      have hsort : (sortKept (keptOf ps (allDetailed width height data ps))).Perm
          (keptOf ps (allDetailed width height data ps)) :=
        List.mergeSort_perm _ _
      exact (hsort.append_right _).trans (kept_dropped_split ps _)
    have hsum := hperm.sum_eq
    rw [List.map_append, List.sum_append] at hsum
    rw [hsum]
    unfold allDetailed
    rw [detailClusters_map_percent]
    have hif : (fun (c : Cluster) =>
        if 0 < validCount ps.alphaThreshold data then
          100 * (c.count : ℝ) / (validCount ps.alphaThreshold data) else 0) =
        fun c => 100 * (c.count : ℝ) / (validCount ps.alphaThreshold data) := by
      funext c
      rw [if_pos hpv]
    rw [hif]
    have hscale := sum_map_scale 100 ((validCount ps.alphaThreshold data : ℝ))
      ((scanClusters ps.alphaThreshold (deltaEThresholdOf ps.tolerance) data).map
        fun c => (c.count : ℝ))
    rw [List.map_map] at hscale
    have : ((scanClusters ps.alphaThreshold (deltaEThresholdOf ps.tolerance)
        data).map ((fun x => 100 * x / (validCount ps.alphaThreshold data : ℝ)) ∘
          fun c => (c.count : ℝ))) =
        (scanClusters ps.alphaThreshold (deltaEThresholdOf ps.tolerance) data).map
          (fun c => 100 * (c.count : ℝ) / (validCount ps.alphaThreshold data : ℝ)) := rfl
    rw [this] at hscale
    rw [hscale, sum_map_count_cast]
    have hvc : ((scanClusters ps.alphaThreshold (deltaEThresholdOf ps.tolerance)
        data).map Cluster.count).sum = validCount ps.alphaThreshold data := by
      simpa using scanClusters_count_sum ps.alphaThreshold
        (deltaEThresholdOf ps.tolerance) data []
    rw [hvc]
    have hne : ((validCount ps.alphaThreshold data : ℕ) : ℝ) ≠ 0 :=
      Nat.cast_ne_zero.mpr (Nat.pos_iff_ne_zero.mp hpv)
    field_simp

/-- Witness for C8 on a concrete 1×1 raster. -/
theorem kept_dropped_partition_witness :
    (1 : ℕ) ≠ 0 ∧
      ∃ dr, (analyzeImage 1 1 [⟨0, 0, 0, 255⟩]
          ⟨10, 40, 0.5, 0, 0⟩).dropped = some dr ∧
        ((analyzeImage 1 1 [⟨0, 0, 0, 255⟩] ⟨10, 40, 0.5, 0, 0⟩).clusters ++
          dr).Perm (allDetailed 1 1 [⟨0, 0, 0, 255⟩] ⟨10, 40, 0.5, 0, 0⟩) ∧
        ((analyzeImage 1 1 [⟨0, 0, 0, 255⟩] ⟨10, 40, 0.5, 0, 0⟩).clusters.map
            DetailedCluster.pixelCount).sum +
          (dr.map DetailedCluster.pixelCount).sum =
          (analyzeImage 1 1 [⟨0, 0, 0, 255⟩] ⟨10, 40, 0.5, 0, 0⟩).totals.pixelsValid ∧
        (0 < (analyzeImage 1 1 [⟨0, 0, 0, 255⟩]
            ⟨10, 40, 0.5, 0, 0⟩).totals.pixelsValid →
          ((analyzeImage 1 1 [⟨0, 0, 0, 255⟩] ⟨10, 40, 0.5, 0, 0⟩).clusters.map
              DetailedCluster.percentValid).sum +
            (dr.map DetailedCluster.percentValid).sum = 100) :=
  ⟨one_ne_zero,
    kept_dropped_partition 1 1 [⟨0, 0, 0, 255⟩] ⟨10, 40, 0.5, 0, 0⟩
      one_ne_zero one_ne_zero⟩

/-! ### The label-map variant of `analyzeImage` (the second version of
`imageProcessing.js`, filtering by a minimum area in cm² and emitting a
per-pixel label array) -/

/-- The detailed cluster view of the label-map variant (adds the creation
`id`). -/
structure DetailedClusterL where
  id : ℕ
  rgb : ℤ × ℤ × ℤ
  hex : String
  pixelCount : ℕ
  percentValid : ℝ
  areaCm2 : ℝ

/-- The totals record of the label-map variant (every field is present in
both the degenerate and the main return). -/
structure TotalsL where
  pixelsTotal : ℕ
  pixelsValid : ℕ
  pixelsKept : ℕ
  areaCm2 : ℝ
  boxAreaCm2 : ℝ
  areaPerPixel : ℝ
  droppedCount : ℕ

/-- The result of the label-map variant: kept and dropped clusters, totals,
the per-pixel label array (`null` on the degenerate return), and the raster
size. -/
structure AnalyzeResultL where
  clusters : List DetailedClusterL
  dropped : List DetailedClusterL
  totals : TotalsL
  labels : Option (List ℤ)
  size : ℕ × ℕ

/-- The parameter object of the label-map variant (`minAreaCm2` instead of
`minAreaPercent`). -/
structure AnalyzeParamsL where
  alphaThreshold : ℝ
  tolerance : ℝ
  minAreaCm2 : ℝ
  rugWidthCm : ℝ
  rugHeightCm : ℝ

/-- One scan iteration of the label-map variant: same clustering step, but
also records the per-pixel provisional label (`-1` for skipped pixels, the
admitted cluster index, or the id of the freshly created cluster). -/
noncomputable def scanStepL (alphaThreshold deltaEThreshold : ℝ)
    (st : List Cluster × List ℤ) (p : Pixel) : List Cluster × List ℤ :=
  if (p.a : ℝ) ≤ alphaThreshold then (st.1, st.2 ++ [-1])
  else
    let lab := rgbToLab p.r p.g p.b
    match findBest lab st.1 with
    | some (i, d) =>
        if d ≤ deltaEThreshold then
          (modifyAt (fun c => admitPixel c p lab) i st.1, st.2 ++ [(i : ℤ)])
        else (st.1 ++ [seedCluster p lab], st.2 ++ [(st.1.length : ℤ)])
    | none => (st.1 ++ [seedCluster p lab], st.2 ++ [(st.1.length : ℤ)])

/-- The full scan of the label-map variant. -/
noncomputable def scanClustersL (alphaThreshold deltaEThreshold : ℝ)
    (data : List Pixel) : List Cluster × List ℤ :=
  data.foldl (scanStepL alphaThreshold deltaEThreshold) ([], [])

/-- The detailed clusters of the label-map variant; the `id` of a cluster is
its creation index in the scan list. -/
noncomputable def detailClustersL (pixelsValid : ℕ) (areaPerPixel : ℝ)
    (cs : List Cluster) : List DetailedClusterL :=
  cs.enum.map fun ic =>
    let c := ic.2
    let rgb : ℤ × ℤ × ℤ :=
      (jsRound (c.rgbSum.1 / c.count), jsRound (c.rgbSum.2.1 / c.count),
       jsRound (c.rgbSum.2.2 / c.count))
    { id := ic.1
      rgb := rgb
      hex := rgbToHex rgb.1 rgb.2.1 rgb.2.2
      pixelCount := c.count
      percentValid := if 0 < pixelsValid then 100 * c.count / pixelsValid else 0
      areaCm2 := c.count * areaPerPixel }

/-- The `idToKept` lookup of the label-map variant: final index of the kept
cluster carrying a given id, or `-1`. -/
noncomputable def keptIdxAux (rid : ℤ) : List DetailedClusterL → ℕ → ℤ
  | [], _ => -1
  | c :: cs, i => if (c.id : ℤ) = rid then (i : ℤ) else keptIdxAux rid cs (i + 1)

/-- `analyzeImage` of the label-map variant of `imageProcessing.js`. -/
noncomputable def analyzeImageL (width height : ℕ) (data : List Pixel)
    (ps : AnalyzeParamsL) : AnalyzeResultL :=
  if width = 0 ∨ height = 0 then
    { clusters := []
      dropped := []
      totals := { pixelsTotal := 0, pixelsValid := 0, pixelsKept := 0
                  areaCm2 := 0, boxAreaCm2 := 0, areaPerPixel := 0
                  droppedCount := 0 }
      labels := none
      size := (width, height) }
  else
    let scanned := scanClustersL ps.alphaThreshold (deltaEThresholdOf ps.tolerance) data
    let pixelsTotal := width * height
    let pixelsValid := validCount ps.alphaThreshold data
    let boxAreaCm2 := max 0 ps.rugWidthCm * max 0 ps.rugHeightCm
    let areaPerPixel := if 0 < pixelsTotal then boxAreaCm2 / (pixelsTotal : ℝ) else 0
    let minArea := max 0 ps.minAreaCm2
    let minPixels := if 0 < areaPerPixel then minArea / areaPerPixel else 0
    let detailed := detailClustersL pixelsValid areaPerPixel scanned.1
    let kept := detailed.filter fun c => decide (minPixels ≤ (c.pixelCount : ℝ))
    let dropped := detailed.filter fun c => decide (¬ minPixels ≤ (c.pixelCount : ℝ))
    let keptSorted := kept.mergeSort fun a b => decide (b.pixelCount ≤ a.pixelCount)
    let labels := scanned.2.map fun rid =>
      if rid < 0 then -1 else keptIdxAux rid keptSorted 0
    let pixelsKept := (labels.filter fun x => decide (0 ≤ x)).length
    { clusters := keptSorted
      dropped := dropped
      totals := { pixelsTotal := pixelsTotal
                  pixelsValid := pixelsValid
                  pixelsKept := pixelsKept
                  areaCm2 := (keptSorted.map DetailedClusterL.areaCm2).foldl (· + ·) 0
                  boxAreaCm2 := boxAreaCm2
                  areaPerPixel := areaPerPixel
                  droppedCount := dropped.length }
      labels := some labels
      size := (width, height) }

theorem foldl_scanStep_invalid (alphaThreshold deltaEThreshold : ℝ) :
    ∀ (data : List Pixel) (cs : List Cluster),
      (∀ p ∈ data, (p.a : ℝ) ≤ alphaThreshold) →
      data.foldl (scanStep alphaThreshold deltaEThreshold) cs = cs
  | [], cs, _ => rfl
  | p :: data, cs, h => by
    rw [List.foldl_cons]
    have hstep : scanStep alphaThreshold deltaEThreshold cs p = cs := by
      unfold scanStep
      rw [if_pos (h p (List.mem_cons_self p data))]
    rw [hstep]
    exact foldl_scanStep_invalid alphaThreshold deltaEThreshold data cs
      fun q hq => h q (List.mem_cons_of_mem p hq)

theorem foldl_scanStepL_invalid (alphaThreshold deltaEThreshold : ℝ) :
    ∀ (data : List Pixel) (cs : List Cluster) (ls : List ℤ),
      (∀ p ∈ data, (p.a : ℝ) ≤ alphaThreshold) →
      (data.foldl (scanStepL alphaThreshold deltaEThreshold) (cs, ls)).1 = cs
  | [], cs, ls, _ => rfl
  | p :: data, cs, ls, h => by
    rw [List.foldl_cons]
    have hstep : scanStepL alphaThreshold deltaEThreshold (cs, ls) p =
        (cs, ls ++ [-1]) := by
      unfold scanStepL
      rw [if_pos (h p (List.mem_cons_self p data))]
    rw [hstep]
    exact foldl_scanStepL_invalid alphaThreshold deltaEThreshold data cs
      (ls ++ [-1]) fun q hq => h q (List.mem_cons_of_mem p hq)

theorem no_valid_of_validCount_zero (alphaThreshold : ℝ) (data : List Pixel)
    (h : validCount alphaThreshold data = 0) :
    ∀ p ∈ data, (p.a : ℝ) ≤ alphaThreshold := by
  unfold validCount at h
  intro p hp
  by_contra hc
  have hmem : p ∈ data.filter fun q => decide (¬ (q.a : ℝ) ≤ alphaThreshold) :=
    List.mem_filter.mpr ⟨hp, by simpa using hc⟩
  rw [List.length_eq_zero] at h
  rw [h] at hmem
  exact absurd hmem (List.not_mem_nil p)

/-- C7: degenerate inputs never raise: a raster with zero width or height
yields, for any parameter object, the empty result with all totals zero (in
both variants of `analyzeImage`, the label-map variant returning a fully
zeroed totals record, a `null` label map and the raster size); and an input
with no valid pixel yields an empty cluster list with `pixelsValid = 0`. -/
theorem analyzeImage_degenerate (width height : ℕ) (data : List Pixel)
    (ps : AnalyzeParams) (psl : AnalyzeParamsL) :
    ((width = 0 ∨ height = 0) →
      analyzeImageL width height data psl =
        ⟨[], [], ⟨0, 0, 0, 0, 0, 0, 0⟩, none, (width, height)⟩ ∧
      analyzeImage width height data ps =
        ⟨[], none, ⟨0, 0, none, 0, none, none, none⟩⟩) ∧
    (validCount ps.alphaThreshold data = 0 →
      (analyzeImage width height data ps).clusters = [] ∧
      (analyzeImage width height data ps).totals.pixelsValid = 0) ∧
    (validCount psl.alphaThreshold data = 0 →
      (analyzeImageL width height data psl).clusters = [] ∧
      (analyzeImageL width height data psl).totals.pixelsValid = 0) := by
  refine ⟨?_, ?_, ?_⟩
  · intro h
    constructor
    · unfold analyzeImageL
      rw [if_pos h]
    · unfold analyzeImage
      rw [if_pos h]
  · intro h
    rcases Classical.em (width = 0 ∨ height = 0) with hz | hz
    · unfold analyzeImage
      rw [if_pos hz]
      exact ⟨rfl, rfl⟩
    · rw [analyzeImage_eq_main width height data ps hz]
      have hscan : scanClusters ps.alphaThreshold (deltaEThresholdOf ps.tolerance)
          data = [] :=
        foldl_scanStep_invalid _ _ data []
          (no_valid_of_validCount_zero _ data h)
      constructor
      · simp [sortKept, keptOf, allDetailed, hscan, detailClusters]
      · exact h
  · intro h
    rcases Classical.em (width = 0 ∨ height = 0) with hz | hz
    · unfold analyzeImageL
      rw [if_pos hz]
      exact ⟨rfl, rfl⟩
    · unfold analyzeImageL
      rw [if_neg hz]
      have hscan : (scanClustersL psl.alphaThreshold
          (deltaEThresholdOf psl.tolerance) data).1 = [] :=
        foldl_scanStepL_invalid _ _ data [] []
          (no_valid_of_validCount_zero _ data h)
      constructor
      · simp only
        rw [hscan]
        simp [detailClustersL]
      · exact h

/-- Witness for C7 on a raster with zero width and a raster with no valid
pixel. -/
theorem analyzeImage_degenerate_witness :
    ((0 : ℕ) = 0 ∨ (5 : ℕ) = 0) ∧
      validCount (10 : ℝ) [⟨1, 2, 3, 0⟩] = 0 ∧
      (analyzeImageL 0 5 [] ⟨10, 40, 0.5, 0, 0⟩ =
          ⟨[], [], ⟨0, 0, 0, 0, 0, 0, 0⟩, none, (0, 5)⟩ ∧
        analyzeImage 0 5 [] ⟨10, 40, 0.5, 0, 0⟩ =
          ⟨[], none, ⟨0, 0, none, 0, none, none, none⟩⟩) ∧
      ((analyzeImage 3 3 [⟨1, 2, 3, 0⟩] ⟨10, 40, 0.5, 0, 0⟩).clusters = [] ∧
        (analyzeImage 3 3 [⟨1, 2, 3, 0⟩] ⟨10, 40, 0.5, 0, 0⟩).totals.pixelsValid = 0) := by
  have hvc : validCount (10 : ℝ) [⟨1, 2, 3, 0⟩] = 0 := by
    unfold validCount
    rw [List.filter_cons]
    rw [if_neg (by norm_num)]
    simp
  refine ⟨Or.inl rfl, hvc, ?_, ?_⟩
  · exact (analyzeImage_degenerate 0 5 [] ⟨10, 40, 0.5, 0, 0⟩
      ⟨10, 40, 0.5, 0, 0⟩).1 (Or.inl rfl)
  · exact (analyzeImage_degenerate 3 3 [⟨1, 2, 3, 0⟩] ⟨10, 40, 0.5, 0, 0⟩
      ⟨10, 40, 0.5, 0, 0⟩).2.1 hvc

/-! ### `computeYarnConstants` of `calculation.js` over JavaScript numbers

The yarn-constant derivation is purely rational arithmetic, but its inputs
are arbitrary JavaScript numbers; `JSNum` models them as exact rationals
extended with `NaN` and the two infinities, with IEEE-style propagation. -/

/-- A JavaScript number: finite (idealized as an exact rational), one of
the infinities, or `NaN`. -/
inductive JSNum where
  | nan : JSNum
  | posInf : JSNum
  | negInf : JSNum
  | fin : ℚ → JSNum
  deriving Repr, DecidableEq

/-- JavaScript falsiness of a number: `NaN` and `0` are falsy. -/
def jsFalsy : JSNum → Bool
  | .nan => true
  | .fin q => decide (q = 0)
  | _ => false

/-- `Number(x || d)` for a possibly-`undefined` numeric `x`: `undefined`,
`NaN` and `0` fall back to the default. -/
def orDefault (x : Option JSNum) (d : JSNum) : JSNum :=
  match x with
  | none => d
  | some v => if jsFalsy v then d else v

/-- The raw numeric value of a possibly-`undefined` field
(`Number(undefined)` is `NaN`). -/
def numOf : Option JSNum → JSNum
  | none => .nan
  | some v => v

/-- JavaScript `<` on numbers (`false` whenever `NaN` is involved). -/
def jsLtB : JSNum → JSNum → Bool
  | .nan, _ => false
  | _, .nan => false
  | .negInf, .negInf => false
  | .negInf, _ => true
  | .posInf, _ => false
  | .fin _, .posInf => true
  | .fin _, .negInf => false
  | .fin a, .fin b => decide (a < b)

/-- JavaScript addition. -/
def jsAdd : JSNum → JSNum → JSNum
  | .nan, _ => .nan
  | _, .nan => .nan
  | .posInf, .negInf => .nan
  | .negInf, .posInf => .nan
  | .posInf, _ => .posInf
  | _, .posInf => .posInf
  | .negInf, _ => .negInf
  | _, .negInf => .negInf
  | .fin a, .fin b => .fin (a + b)

/-- JavaScript multiplication (`0 * Infinity` is `NaN`). -/
def jsMul : JSNum → JSNum → JSNum
  | .nan, _ => .nan
  | _, .nan => .nan
  | .posInf, .posInf => .posInf
  | .posInf, .negInf => .negInf
  | .negInf, .posInf => .negInf
  | .negInf, .negInf => .posInf
  | .posInf, .fin b => if b = 0 then .nan else if 0 < b then .posInf else .negInf
  | .fin a, .posInf => if a = 0 then .nan else if 0 < a then .posInf else .negInf
  | .negInf, .fin b => if b = 0 then .nan else if 0 < b then .negInf else .posInf
  | .fin a, .negInf => if a = 0 then .nan else if 0 < a then .negInf else .posInf
  | .fin a, .fin b => .fin (a * b)

/-- JavaScript division (division by `0` yields a signed infinity, `0/0`
and `Infinity/Infinity` yield `NaN`; the embedded zero is `+0`). -/
def jsDiv : JSNum → JSNum → JSNum
  | .nan, _ => .nan
  | _, .nan => .nan
  | .posInf, .posInf => .nan
  | .posInf, .negInf => .nan
  | .negInf, .posInf => .nan
  | .negInf, .negInf => .nan
  | .posInf, .fin b => if 0 ≤ b then .posInf else .negInf
  | .negInf, .fin b => if 0 ≤ b then .negInf else .posInf
  | .fin _, .posInf => .fin 0
  | .fin _, .negInf => .fin 0
  | .fin a, .fin b =>
      if b = 0 then (if a = 0 then .nan else if 0 < a then .posInf else .negInf)
      else .fin (a / b)

/-- JavaScript `Math.max` (propagates `NaN`). -/
def jsMax : JSNum → JSNum → JSNum
  | .nan, _ => .nan
  | _, .nan => .nan
  | .posInf, _ => .posInf
  | _, .posInf => .posInf
  | .negInf, y => y
  | x, .negInf => x
  | .fin a, .fin b => .fin (max a b)

/-- JavaScript `Math.round`: half-up rounding on finite values, identity on
infinities, `NaN` on `NaN`. -/
def jsRoundN : JSNum → JSNum
  | .nan => .nan
  | .posInf => .posInf
  | .negInf => .negInf
  | .fin q => .fin ((⌊q + 1 / 2⌋ : ℤ) : ℚ)

/-- `isFiniteNum` of `calculation.js`: `Number.isFinite(Number(x))`
(`Number(undefined)` is `NaN`, hence not finite). -/
def isFiniteNum : Option JSNum → Bool
  | some (.fin _) => true
  | _ => false

/-- The raw comparison `x > 0` on a possibly-`undefined` field (false for
`undefined`, since `undefined > 0` compares through `NaN`). -/
def optGtZero (x : Option JSNum) : Bool :=
  match x with
  | none => false
  | some v => jsLtB (.fin 0) v

/-- JavaScript truthiness of a possibly-`undefined` numeric field. -/
def truthyOpt (x : Option JSNum) : Bool :=
  match x with
  | none => false
  | some v => ! jsFalsy v

/-- The input object of `computeYarnConstants`. -/
structure YarnParams where
  mode : Option String
  densityPreset : Option String
  linesPerCm : Option JSNum
  stitchesPerCm : Option JSNum
  pileType : Option String
  pileHeightMm : Option JSNum
  strands : Option JSNum
  wastagePercent : Option JSNum
  yarnGPerM : Option JSNum
  yarnMPerKg : Option JSNum

/-- The record returned by `computeYarnConstants`. -/
structure YarnConstants where
  g_per_m_single : JSNum
  strands : JSNum
  wastage : JSNum
  L_m_per_cm2_single : JSNum
  deriving Repr, DecidableEq

/-- `{low: 0.8, medium: 1.0, high: 1.25}[densityPreset || "medium"] ?? 1.0`. -/
def presetMulOf (d : Option String) : ℚ :=
  let key := match d with
    | none => "medium"
    | some s => if s = "" then "medium" else s
  if key = "low" then 0.8
  else if key = "medium" then 1
  else if key = "high" then 1.25
  else 1

/-- The guard selecting the advanced (measured-density) path of
`computeYarnConstants`. -/
def advancedActive (ps : YarnParams) : Bool :=
  decide (ps.mode = some "advanced") && isFiniteNum ps.linesPerCm &&
    isFiniteNum ps.stitchesPerCm && optGtZero ps.linesPerCm &&
    optGtZero ps.stitchesPerCm

/-- `computeYarnConstants` of `calculation.js`: pile height in meters,
strand count, wastage fraction, grams-per-meter resolution (explicit
`yarnGPerM`, else `1000 / yarnMPerKg`, else the 0.5 default), and
length-per-area via either the measured-density path or the preset path. -/
def computeYarnConstants (ps : YarnParams) : YarnConstants :=
  let pile_h_m := jsDiv (jsMax (.fin 0) (orDefault ps.pileHeightMm (.fin 0))) (.fin 1000)
  let s := jsMax (.fin 1) (jsRoundN (orDefault ps.strands (.fin 1)))
  let wastage := jsDiv (jsMax (.fin 0) (orDefault ps.wastagePercent (.fin 0))) (.fin 100)
  let g_per_m_single :=
    if isFiniteNum ps.yarnGPerM && optGtZero ps.yarnGPerM then numOf ps.yarnGPerM
    else if isFiniteNum ps.yarnMPerKg && optGtZero ps.yarnMPerKg then
      jsDiv (.fin 1000) (numOf ps.yarnMPerKg)
    else .fin 0.5
  let loopFactor : JSNum := if ps.pileType = some "loop" then .fin 0.95 else .fin 1
  let L_m_per_cm2_single :=
    if advancedActive ps then
      let L_backing := jsMul (.fin 0.01) (numOf ps.linesPerCm)
      let stitches_per_cm2 := jsMul (numOf ps.linesPerCm) (numOf ps.stitchesPerCm)
      let L_pile := jsMul (jsMul (jsMul (.fin 2) pile_h_m) loopFactor) stitches_per_cm2
      jsAdd L_backing L_pile
    else
      let presetMul := presetMulOf ps.densityPreset
      let pileHeightMul :=
        if jsLtB (.fin 0) pile_h_m then jsDiv pile_h_m (.fin 0.012) else .fin 1
      let pileTypeMul : JSNum := if ps.pileType = some "loop" then .fin 0.95 else .fin 1
      let m_per_m2_single :=
        jsMul (jsMul (jsMul (.fin 1200) (.fin presetMul)) pileHeightMul) pileTypeMul
      jsDiv m_per_m2_single (.fin 10000)
  { g_per_m_single := g_per_m_single
    strands := s
    wastage := wastage
    L_m_per_cm2_single := L_m_per_cm2_single }

/-- The `pricePerKg` resolution performed by the analyze click handler in
`app.js`: an explicit positive `yarnPricePerKg` wins; otherwise, when both
skein fields are present (truthy) and the weight is positive, the source
evaluates `(skeinPrice / skeinWeightG) * 1000` — but the identifiers
`skeinPrice` and `skeinWeightG` are not declared anywhere in scope (the
values live on `params`), so in a module script this evaluation throws a
`ReferenceError`, modeled here as `Except.error`; otherwise the price stays
`undefined`. -/
def resolvePricePerKg (yarnPricePerKg skeinWeightG skeinPrice : Option JSNum) :
    Except String (Option JSNum) :=
  if truthyOpt yarnPricePerKg && optGtZero yarnPricePerKg then
    .ok (some (numOf yarnPricePerKg))
  else if truthyOpt skeinWeightG && truthyOpt skeinPrice && optGtZero skeinWeightG then
    .error "ReferenceError: skeinPrice is not defined"
  else .ok none

/-- A possibly-absent field holding no non-finite number (the inputs the
surrounding app produces: a finite number or `undefined`). -/
def finiteOpt : Option JSNum → Prop
  | none => True
  | some (.fin _) => True
  | some _ => False

theorem jsMul_fin_fin (a b : ℚ) : jsMul (.fin a) (.fin b) = .fin (a * b) := rfl

theorem jsAdd_fin_fin (a b : ℚ) : jsAdd (.fin a) (.fin b) = .fin (a + b) := rfl

theorem jsMax_fin_fin (a b : ℚ) : jsMax (.fin a) (.fin b) = .fin (max a b) := rfl

theorem jsLtB_fin_fin (a b : ℚ) : jsLtB (.fin a) (.fin b) = decide (a < b) := rfl

theorem jsDiv_fin_fin (a b : ℚ) (hb : b ≠ 0) :
    jsDiv (.fin a) (.fin b) = .fin (a / b) := by
  simp [jsDiv, hb]

theorem isFiniteNum_true_iff (x : Option JSNum) :
    isFiniteNum x = true ↔ ∃ q, x = some (.fin q) := by
  rcases x with _ | v
  · simp [isFiniteNum]
  · rcases v with _ | _ | _ | q <;> simp [isFiniteNum]

theorem maxZero_orDefault_div_fin (x : Option JSNum) (hx : finiteOpt x)
    (d : ℚ) (hd : 0 < d) :
    ∃ h : ℚ, 0 ≤ h ∧
      jsDiv (jsMax (.fin 0) (orDefault x (.fin 0))) (.fin d) = .fin h := by
  rcases x with _ | v
  · refine ⟨0, le_refl 0, ?_⟩
    simp only [orDefault]
    rw [jsMax_fin_fin, jsDiv_fin_fin _ _ hd.ne']
    norm_num
  · rcases v with _ | _ | _ | q
    · exact absurd hx (by simp [finiteOpt])
    · exact absurd hx (by simp [finiteOpt])
    · exact absurd hx (by simp [finiteOpt])
    · rcases Classical.em (q = 0) with hq | hq
      · refine ⟨0, le_refl 0, ?_⟩
        simp only [orDefault, jsFalsy, hq]
        rw [if_pos (by norm_num), jsMax_fin_fin, jsDiv_fin_fin _ _ hd.ne']
        norm_num
      · refine ⟨max 0 q / d, by positivity, ?_⟩
        simp only [orDefault, jsFalsy]
        rw [if_neg (by simpa using hq)]
        rw [jsMax_fin_fin, jsDiv_fin_fin _ _ hd.ne']

theorem pile_h_m_fin (x : Option JSNum) (hx : finiteOpt x) :
    ∃ h : ℚ, 0 ≤ h ∧
      jsDiv (jsMax (.fin 0) (orDefault x (.fin 0))) (.fin 1000) = .fin h :=
  maxZero_orDefault_div_fin x hx 1000 (by norm_num)

theorem presetMulOf_pos (d : Option String) : 0 < presetMulOf d := by
  simp only [presetMulOf]
  split_ifs <;> norm_num

theorem advancedActive_pileType (ps : YarnParams) (t : Option String) :
    advancedActive { ps with pileType := t } = advancedActive ps := rfl

theorem computeYarnConstants_L_advanced (ps : YarnParams)
    (hph : finiteOpt ps.pileHeightMm) (hadv : advancedActive ps = true) :
    ∃ h lines stitches : ℚ, 0 ≤ h ∧ 0 < lines ∧ 0 < stitches ∧
      ps.linesPerCm = some (.fin lines) ∧ ps.stitchesPerCm = some (.fin stitches) ∧
      ∀ pt : Option String,
        (computeYarnConstants { ps with pileType := pt }).L_m_per_cm2_single =
          .fin (0.01 * lines +
            2 * h * (if pt = some "loop" then (0.95 : ℚ) else 1) *
              (lines * stitches)) := by
  obtain ⟨h, hh, hpile⟩ := pile_h_m_fin ps.pileHeightMm hph
  have hadv' := hadv
  unfold advancedActive at hadv'
  simp only [Bool.and_eq_true, decide_eq_true_eq] at hadv'
  obtain ⟨⟨⟨⟨_, hfl⟩, hfs⟩, hgl⟩, hgs⟩ := hadv'
  obtain ⟨lines, hlines⟩ := (isFiniteNum_true_iff _).mp hfl
  obtain ⟨stitches, hstitches⟩ := (isFiniteNum_true_iff _).mp hfs
  have hlpos : 0 < lines := by
    rw [hlines] at hgl
    simpa [optGtZero, jsLtB_fin_fin] using hgl
  have hspos : 0 < stitches := by
    rw [hstitches] at hgs
    simpa [optGtZero, jsLtB_fin_fin] using hgs
  refine ⟨h, lines, stitches, hh, hlpos, hspos, hlines, hstitches, fun pt => ?_⟩
  unfold computeYarnConstants
  simp only [advancedActive_pileType, hadv, if_true]
  have hpt : ({ ps with pileType := pt } : YarnParams).pileHeightMm =
      ps.pileHeightMm := rfl
  rw [hpt, hpile, hlines, hstitches]
  simp only [numOf]
  rcases Classical.em (pt = some "loop") with hl | hl
  · rw [if_pos hl, if_pos hl]
    simp only [jsMul_fin_fin, jsAdd_fin_fin]
  · rw [if_neg hl, if_neg hl]
    simp only [jsMul_fin_fin, jsAdd_fin_fin]

theorem computeYarnConstants_L_preset (ps : YarnParams)
    (hph : finiteOpt ps.pileHeightMm) (hadv : advancedActive ps = false) :
    ∃ h : ℚ, 0 ≤ h ∧
      ∀ pt : Option String,
        (computeYarnConstants { ps with pileType := pt }).L_m_per_cm2_single =
          .fin (1200 * presetMulOf ps.densityPreset *
            (if 0 < h then h / 0.012 else 1) *
            (if pt = some "loop" then (0.95 : ℚ) else 1) / 10000) := by
  obtain ⟨h, hh, hpile⟩ := pile_h_m_fin ps.pileHeightMm hph
  refine ⟨h, hh, fun pt => ?_⟩
  unfold computeYarnConstants
  simp only [advancedActive_pileType, hadv, Bool.false_eq_true, if_false]
  have hpt : ({ ps with pileType := pt } : YarnParams).pileHeightMm =
      ps.pileHeightMm := rfl
  rw [hpt, hpile]
  have hdp : ({ ps with pileType := pt } : YarnParams).densityPreset =
      ps.densityPreset := rfl
  rw [hdp, jsLtB_fin_fin]
  rcases Classical.em ((0 : ℚ) < h) with hpos | hpos
  · rw [if_pos (by simpa using hpos), jsDiv_fin_fin _ _ (by norm_num),
      if_pos hpos]
    rcases Classical.em (pt = some "loop") with hl | hl
    · rw [if_pos hl, if_pos hl]
      simp only [jsMul_fin_fin]
      rw [jsDiv_fin_fin _ _ (by norm_num)]
    · rw [if_neg hl, if_neg hl]
      simp only [jsMul_fin_fin]
      rw [jsDiv_fin_fin _ _ (by norm_num)]
  · rw [if_neg (by simpa using hpos), if_neg hpos]
    rcases Classical.em (pt = some "loop") with hl | hl
    · rw [if_pos hl, if_pos hl]
      simp only [jsMul_fin_fin]
      rw [jsDiv_fin_fin _ _ (by norm_num)]
    · rw [if_neg hl, if_neg hl]
      simp only [jsMul_fin_fin]
      rw [jsDiv_fin_fin _ _ (by norm_num)]

/-- Advanced-mode parameters (one line and one stitch per cm, 10 mm pile)
with a selectable pile type, used to test the loop factor. -/
def advParams (pt : String) : YarnParams :=
  { mode := some "advanced", densityPreset := none, linesPerCm := some (.fin 1),
    stitchesPerCm := some (.fin 1), pileType := some pt,
    pileHeightMm := some (.fin 10), strands := none, wastagePercent := none,
    yarnGPerM := none, yarnMPerKg := none }

/-- Counterexample to C3: in the measured-density (advanced) path the loop
factor scales only the pile term, not the backing term, so the loop/cut
length-per-area quotient is 29/30, not 0.95: with one line and one stitch
per cm and 10 mm pile, cut gives 0.03 m/cm² and loop gives 0.029 m/cm². -/
theorem loopFactor_advanced_cex :
    (computeYarnConstants (advParams "loop")).L_m_per_cm2_single =
      .fin (29 / 1000) ∧
    (computeYarnConstants (advParams "cut")).L_m_per_cm2_single =
      .fin (3 / 100) ∧
    ¬ ((29 / 1000 : ℚ) = 0.95 * (3 / 100)) := by
  have h2 : ((some "advanced" : Option String) = some "advanced") = True := by
    simp
  have h1 : ((some "cut" : Option String) = some "loop") = False := by
    simp
  refine ⟨?_, ?_, by norm_num⟩
  · norm_num [computeYarnConstants, advParams, advancedActive, isFiniteNum,
      optGtZero, jsLtB, orDefault, jsFalsy, numOf, jsMax, jsDiv, jsMul, jsAdd, h2]
  · norm_num [computeYarnConstants, advParams, advancedActive, isFiniteNum,
      optGtZero, jsLtB, orDefault, jsFalsy, numOf, jsMax, jsDiv, jsMul, jsAdd,
      h1, h2]

/-- C3 (amended): for two inputs differing only in `pileType`, with a
finite (or absent) pile height, both length-per-area results are finite,
loop never exceeds cut; in the preset path the quotient is exactly 0.95 and
the inequality is strict, while in the measured (advanced) path the 0.95
factor multiplies only the pile term — so loop is strictly smaller exactly
when the pile height is positive. -/
theorem loopFactor_structure (ps : YarnParams) (hph : finiteOpt ps.pileHeightMm) :
    ∃ qc ql : ℚ,
      (computeYarnConstants { ps with pileType := some "cut" }).L_m_per_cm2_single =
        .fin qc ∧
      (computeYarnConstants { ps with pileType := some "loop" }).L_m_per_cm2_single =
        .fin ql ∧
      ql ≤ qc ∧
      (advancedActive ps = false → ql = 0.95 * qc ∧ ql < qc) ∧
      (advancedActive ps = true →
        ∃ lines stitches h : ℚ, 0 < lines ∧ 0 < stitches ∧ 0 ≤ h ∧
          qc = 0.01 * lines + 2 * h * 1 * (lines * stitches) ∧
          ql = 0.01 * lines + 2 * h * 0.95 * (lines * stitches) ∧
          (0 < h → ql < qc)) := by
  rcases hadv : advancedActive ps with _ | _
  · obtain ⟨h, hh, hL⟩ := computeYarnConstants_L_preset ps hph hadv
    have hcut := hL (some "cut")
    have hloop := hL (some "loop")
    rw [if_neg (show ¬ ((some "cut" : Option String) = some "loop") by simp)] at hcut
    rw [if_pos rfl] at hloop
    have hm : (0 : ℚ) < (if 0 < h then h / 0.012 else 1) := by
      split_ifs with hhp
      · positivity
      · norm_num
    have hbase : (0 : ℚ) <
        1200 * presetMulOf ps.densityPreset * (if 0 < h then h / 0.012 else 1) := by
      have := presetMulOf_pos ps.densityPreset
      positivity
    refine ⟨_, _, hcut, hloop, ?_, ?_, ?_⟩
    · nlinarith
    · intro _
      exact ⟨by ring, by nlinarith⟩
    · intro hc
      exact Bool.noConfusion hc
  · obtain ⟨h, lines, stitches, hh, hl, hs, _, _, hL⟩ :=
      computeYarnConstants_L_advanced ps hph hadv
    have hcut := hL (some "cut")
    have hloop := hL (some "loop")
    rw [if_neg (show ¬ ((some "cut" : Option String) = some "loop") by simp)] at hcut
    rw [if_pos rfl] at hloop
    refine ⟨_, _, hcut, hloop, ?_, ?_, ?_⟩
    · nlinarith [mul_pos hl hs]
    · intro hc
      exact Bool.noConfusion hc
    · intro _
      exact ⟨lines, stitches, h, hl, hs, hh, by ring, by ring,
        fun hhp => by nlinarith [mul_pos hl hs]⟩

/-- Witness for C3 (amended) at the concrete advanced-mode parameters. -/
theorem loopFactor_structure_witness :
    finiteOpt (advParams "cut").pileHeightMm ∧
      ∃ qc ql : ℚ,
        (computeYarnConstants
            { advParams "cut" with pileType := some "cut" }).L_m_per_cm2_single =
          .fin qc ∧
        (computeYarnConstants
            { advParams "cut" with pileType := some "loop" }).L_m_per_cm2_single =
          .fin ql ∧
        ql ≤ qc ∧
        (advancedActive (advParams "cut") = false → ql = 0.95 * qc ∧ ql < qc) ∧
        (advancedActive (advParams "cut") = true →
          ∃ lines stitches h : ℚ, 0 < lines ∧ 0 < stitches ∧ 0 ≤ h ∧
            qc = 0.01 * lines + 2 * h * 1 * (lines * stitches) ∧
            ql = 0.01 * lines + 2 * h * 0.95 * (lines * stitches) ∧
            (0 < h → ql < qc)) :=
  ⟨trivial, loopFactor_structure (advParams "cut") trivial⟩

/-- The all-`undefined` parameter object. -/
def noneParams : YarnParams :=
  { mode := none, densityPreset := none, linesPerCm := none,
    stitchesPerCm := none, pileType := none, pileHeightMm := none,
    strands := none, wastagePercent := none, yarnGPerM := none,
    yarnMPerKg := none }

/-- Parameters whose `strands` field is `Infinity`. -/
def infStrandsParams : YarnParams := { noneParams with strands := some .posInf }

/-- Counterexample to C9: on the input `{strands: Infinity}` the code
computes `Math.max(1, Math.round(Infinity)) = Infinity`, so the returned
`strands` is not an integer at all. -/
theorem computeYarnConstants_inf_strands_cex :
    (computeYarnConstants infStrandsParams).strands = JSNum.posInf ∧
    ¬ ∃ z : ℤ, 1 ≤ z ∧
      (computeYarnConstants infStrandsParams).strands = .fin (z : ℚ) := by
  have h : (computeYarnConstants infStrandsParams).strands = JSNum.posInf := by
    norm_num [computeYarnConstants, infStrandsParams, noneParams, orDefault,
      jsFalsy, jsRoundN, jsMax]
  refine ⟨h, ?_⟩
  rintro ⟨z, _, hz⟩
  rw [h] at hz
  exact JSNum.noConfusion hz

theorem computeYarnConstants_strands_eq (ps : YarnParams) :
    (computeYarnConstants ps).strands =
      jsMax (.fin 1) (jsRoundN (orDefault ps.strands (.fin 1))) := rfl

theorem computeYarnConstants_wastage_eq (ps : YarnParams) :
    (computeYarnConstants ps).wastage =
      jsDiv (jsMax (.fin 0) (orDefault ps.wastagePercent (.fin 0))) (.fin 100) := rfl

theorem computeYarnConstants_g_eq (ps : YarnParams) :
    (computeYarnConstants ps).g_per_m_single =
      (if isFiniteNum ps.yarnGPerM && optGtZero ps.yarnGPerM then numOf ps.yarnGPerM
       else if isFiniteNum ps.yarnMPerKg && optGtZero ps.yarnMPerKg then
         jsDiv (.fin 1000) (numOf ps.yarnMPerKg)
       else .fin 0.5) := rfl

/-- C9 (amended): whenever the supplied numeric fields are finite numbers
or absent, `computeYarnConstants` totally produces a record with an integer
strand count at least 1, a nonnegative wastage fraction, a positive finite
grams-per-meter (falling back to exactly 0.5 whenever neither yarn spec is
a finite positive number), and a finite nonnegative length-per-area. -/
theorem computeYarnConstants_safe (ps : YarnParams)
    (h1 : finiteOpt ps.pileHeightMm) (h2 : finiteOpt ps.strands)
    (h3 : finiteOpt ps.wastagePercent) :
    (∃ z : ℤ, 1 ≤ z ∧ (computeYarnConstants ps).strands = .fin (z : ℚ)) ∧
    (∃ w : ℚ, 0 ≤ w ∧ (computeYarnConstants ps).wastage = .fin w) ∧
    (∃ g : ℚ, 0 < g ∧ (computeYarnConstants ps).g_per_m_single = .fin g) ∧
    ((isFiniteNum ps.yarnGPerM && optGtZero ps.yarnGPerM) = false →
      (isFiniteNum ps.yarnMPerKg && optGtZero ps.yarnMPerKg) = false →
      (computeYarnConstants ps).g_per_m_single = .fin 0.5) ∧
    (∃ L : ℚ, 0 ≤ L ∧ (computeYarnConstants ps).L_m_per_cm2_single = .fin L) := by
  refine ⟨?_, ?_, ?_, ?_, ?_⟩
  · rw [computeYarnConstants_strands_eq]
    rcases hs : ps.strands with _ | v
    · refine ⟨1, le_refl 1, ?_⟩
      simp only [orDefault, jsRoundN, jsMax_fin_fin]
      norm_num
    · rw [hs] at h2
      rcases v with _ | _ | _ | q
      · exact absurd h2 (by simp [finiteOpt])
      · exact absurd h2 (by simp [finiteOpt])
      · exact absurd h2 (by simp [finiteOpt])
      · rcases Classical.em (q = 0) with hq | hq
        · refine ⟨1, le_refl 1, ?_⟩
          simp only [orDefault, jsFalsy, hq]
          rw [if_pos (by norm_num)]
          simp only [jsRoundN, jsMax_fin_fin]
          norm_num
        · refine ⟨max 1 ⌊q + 1 / 2⌋, le_max_left _ _, ?_⟩
          simp only [orDefault, jsFalsy]
          rw [if_neg (by simpa using hq)]
          simp only [jsRoundN, jsMax_fin_fin]
          congr 1
          rw [Int.cast_max]
          norm_num
  · rw [computeYarnConstants_wastage_eq]
    obtain ⟨w, hw, hweq⟩ := maxZero_orDefault_div_fin ps.wastagePercent h3 100
      (by norm_num)
    exact ⟨w, hw, hweq⟩
  · rw [computeYarnConstants_g_eq]
    rcases hg1 : (isFiniteNum ps.yarnGPerM && optGtZero ps.yarnGPerM) with _ | _
    · rcases hg2 : (isFiniteNum ps.yarnMPerKg && optGtZero ps.yarnMPerKg) with _ | _
      · refine ⟨0.5, by norm_num, ?_⟩
        rw [if_neg (by simp [hg1]), if_neg (by simp [hg2])]
      · rw [Bool.and_eq_true] at hg2
        obtain ⟨q, hq⟩ := (isFiniteNum_true_iff _).mp hg2.1
        have hqpos : 0 < q := by
          have := hg2.2
          rw [hq] at this
          simpa [optGtZero, jsLtB_fin_fin] using this
        refine ⟨1000 / q, by positivity, ?_⟩
        rw [if_neg (by simp [hg1]), if_pos (by simp [hg2.1, hg2.2]), hq]
        show jsDiv (.fin 1000) (.fin q) = _
        rw [jsDiv_fin_fin _ _ hqpos.ne']
    · rw [Bool.and_eq_true] at hg1
      obtain ⟨q, hq⟩ := (isFiniteNum_true_iff _).mp hg1.1
      have hqpos : 0 < q := by
        have := hg1.2
        rw [hq] at this
        simpa [optGtZero, jsLtB_fin_fin] using this
      refine ⟨q, hqpos, ?_⟩
      rw [if_pos (by simp [hg1.1, hg1.2]), hq]
      rfl
  · intro hg1 hg2
    rw [computeYarnConstants_g_eq, if_neg (by simp [hg1]), if_neg (by simp [hg2])]
  · have hps : ({ ps with pileType := ps.pileType } : YarnParams) = ps := rfl
    rcases hadv : advancedActive ps with _ | _
    · obtain ⟨h, hh, hL⟩ := computeYarnConstants_L_preset ps h1 hadv
      have := hL ps.pileType
      rw [hps] at this
      refine ⟨_, ?_, this⟩
      have hpm := presetMulOf_pos ps.densityPreset
      have hm : (0 : ℚ) < (if 0 < h then h / 0.012 else 1) := by
        split_ifs with hhp
        · exact div_pos hhp (by norm_num)
        · norm_num
      have hf : (0 : ℚ) < (if ps.pileType = some "loop" then (0.95 : ℚ) else 1) := by
        split_ifs <;> norm_num
      exact le_of_lt (div_pos (mul_pos (mul_pos (mul_pos
        (by norm_num) hpm) hm) hf) (by norm_num))
    · obtain ⟨h, lines, stitches, hh, hl, hs, _, _, hL⟩ :=
        computeYarnConstants_L_advanced ps h1 hadv
      have := hL ps.pileType
      rw [hps] at this
      refine ⟨_, ?_, this⟩
      split_ifs with hlp
      · nlinarith [mul_nonneg hh (mul_pos hl hs).le]
      · nlinarith [mul_nonneg hh (mul_pos hl hs).le]

/-- Witness for C9 (amended) at the all-`undefined` parameter object. -/
theorem computeYarnConstants_safe_witness :
    finiteOpt noneParams.pileHeightMm ∧
      (∃ z : ℤ, 1 ≤ z ∧ (computeYarnConstants noneParams).strands = .fin (z : ℚ)) ∧
      (∃ w : ℚ, 0 ≤ w ∧ (computeYarnConstants noneParams).wastage = .fin w) ∧
      (∃ g : ℚ, 0 < g ∧ (computeYarnConstants noneParams).g_per_m_single = .fin g) ∧
      ((isFiniteNum noneParams.yarnGPerM && optGtZero noneParams.yarnGPerM) = false →
        (isFiniteNum noneParams.yarnMPerKg && optGtZero noneParams.yarnMPerKg) = false →
        (computeYarnConstants noneParams).g_per_m_single = .fin 0.5) ∧
      (∃ L : ℚ, 0 ≤ L ∧
        (computeYarnConstants noneParams).L_m_per_cm2_single = .fin L) :=
  ⟨trivial, computeYarnConstants_safe noneParams trivial trivial trivial⟩

/-- C2: evaluating the price resolution of the analyze handler at inputs
with no explicit price but a 100 g skein priced at 10 units takes the skein
branch, which throws instead of deriving a price of 100 per kg; an explicit
positive price and the all-absent case behave as specified. -/
theorem resolvePricePerKg_skein_throws :
    resolvePricePerKg none (some (.fin 100)) (some (.fin 10)) =
      .error "ReferenceError: skeinPrice is not defined" ∧
    resolvePricePerKg (some (.fin 25)) none none = .ok (some (.fin 25)) ∧
    resolvePricePerKg none none none = .ok none := by
  refine ⟨?_, ?_, ?_⟩
  · norm_num [resolvePricePerKg, truthyOpt, optGtZero, jsFalsy, jsLtB]
  · norm_num [resolvePricePerKg, truthyOpt, optGtZero, jsFalsy, jsLtB, numOf]
  · norm_num [resolvePricePerKg, truthyOpt, optGtZero, jsFalsy, jsLtB]

/-! ### Helpers for running the scan on concrete images -/

/-- Squared Lab distance (the radicand of `deltaE76`). -/
noncomputable def dsq (x y : Lab) : ℝ :=
  (x.l - y.l) * (x.l - y.l) + (x.a - y.a) * (x.a - y.a) +
    (x.b - y.b) * (x.b - y.b)

theorem deltaE76_eq_sqrt_dsq (x y : Lab) : deltaE76 x y = Real.sqrt (dsq x y) := rfl

theorem dsq_nonneg (x y : Lab) : 0 ≤ dsq x y :=
  add_nonneg (add_nonneg (mul_self_nonneg _) (mul_self_nonneg _))
    (mul_self_nonneg _)

theorem deltaE76_self (x : Lab) : deltaE76 x x = 0 := by
  unfold deltaE76
  simp

theorem deltaE76_le_of_dsq_le {x y : Lab} {t : ℝ} (ht : 0 ≤ t)
    (h : dsq x y ≤ t ^ 2) : deltaE76 x y ≤ t := by
  rw [deltaE76_eq_sqrt_dsq]
  calc Real.sqrt (dsq x y) ≤ Real.sqrt (t ^ 2) := Real.sqrt_le_sqrt h
    _ = t := Real.sqrt_sq ht

theorem not_deltaE76_le_of_lt_dsq {x y : Lab} {t : ℝ} (ht : 0 ≤ t)
    (h : t ^ 2 < dsq x y) : ¬ deltaE76 x y ≤ t := by
  rw [deltaE76_eq_sqrt_dsq]
  exact not_le.mpr ((Real.lt_sqrt ht).mpr h)

theorem deltaE76_lt_of_dsq_lt {x y z w : Lab} (h : dsq x y < dsq z w) :
    deltaE76 x y < deltaE76 z w := by
  rw [deltaE76_eq_sqrt_dsq, deltaE76_eq_sqrt_dsq]
  exact Real.sqrt_lt_sqrt (dsq_nonneg x y) h

theorem not_deltaE76_lt_of_dsq_le {x y z w : Lab} (h : dsq z w ≤ dsq x y) :
    ¬ deltaE76 x y < deltaE76 z w := by
  rw [deltaE76_eq_sqrt_dsq, deltaE76_eq_sqrt_dsq]
  exact not_lt.mpr (Real.sqrt_le_sqrt h)

theorem findBest_one (lab : Lab) (c : Cluster) :
    findBest lab [c] = some (0, deltaE76 lab c.labMean) := rfl

theorem findBest_two_snd (lab : Lab) (c0 c1 : Cluster)
    (h : deltaE76 lab c1.labMean < deltaE76 lab c0.labMean) :
    findBest lab [c0, c1] = some (1, deltaE76 lab c1.labMean) := by
  unfold findBest
  simp only [findBestAux]
  rw [if_pos h]

theorem findBest_two_fst (lab : Lab) (c0 c1 : Cluster)
    (h : ¬ deltaE76 lab c1.labMean < deltaE76 lab c0.labMean) :
    findBest lab [c0, c1] = some (0, deltaE76 lab c0.labMean) := by
  unfold findBest
  simp only [findBestAux]
  rw [if_neg h]

theorem scanStep_skip (alphaThreshold deltaEThreshold : ℝ) (cs : List Cluster)
    (p : Pixel) (h : (p.a : ℝ) ≤ alphaThreshold) :
    scanStep alphaThreshold deltaEThreshold cs p = cs := by
  unfold scanStep
  rw [if_pos h]

theorem scanStep_first (alphaThreshold deltaEThreshold : ℝ) (p : Pixel)
    (h : ¬ (p.a : ℝ) ≤ alphaThreshold) :
    scanStep alphaThreshold deltaEThreshold [] p =
      [seedCluster p (rgbToLab p.r p.g p.b)] := by
  unfold scanStep
  rw [if_neg h]
  rfl

theorem scanStep_accept (alphaThreshold deltaEThreshold : ℝ) (cs : List Cluster)
    (p : Pixel) (i : ℕ) (d : ℝ) (h : ¬ (p.a : ℝ) ≤ alphaThreshold)
    (hfb : findBest (rgbToLab p.r p.g p.b) cs = some (i, d))
    (hd : d ≤ deltaEThreshold) :
    scanStep alphaThreshold deltaEThreshold cs p =
      modifyAt (fun c => admitPixel c p (rgbToLab p.r p.g p.b)) i cs := by
  unfold scanStep
  rw [if_neg h]
  simp only [hfb]
  rw [if_pos hd]

theorem scanStep_new (alphaThreshold deltaEThreshold : ℝ) (cs : List Cluster)
    (p : Pixel) (i : ℕ) (d : ℝ) (h : ¬ (p.a : ℝ) ≤ alphaThreshold)
    (hfb : findBest (rgbToLab p.r p.g p.b) cs = some (i, d))
    (hd : ¬ d ≤ deltaEThreshold) :
    scanStep alphaThreshold deltaEThreshold cs p =
      cs ++ [seedCluster p (rgbToLab p.r p.g p.b)] := by
  unfold scanStep
  rw [if_neg h]
  simp only [hfb]
  rw [if_neg hd]

theorem seedCluster_labMean (p : Pixel) (x : Lab) :
    (seedCluster p x).labMean = x := rfl

theorem seedCluster_count (p : Pixel) (x : Lab) :
    (seedCluster p x).count = 1 := rfl

theorem admitPixel_count (c : Cluster) (p : Pixel) (x : Lab) :
    (admitPixel c p x).count = c.count + 1 := rfl

theorem admitPixel_seed_labMean (p q : Pixel) (x y : Lab) :
    (admitPixel (seedCluster p x) q y).labMean =
      ⟨(x.l + y.l) / 2, (x.a + y.a) / 2, (x.b + y.b) / 2⟩ := by
  simp only [admitPixel, seedCluster]
  norm_num

theorem admitPixel_seed_same_labMean (p q : Pixel) (x : Lab) :
    (admitPixel (seedCluster p x) q x).labMean = x := by
  rw [admitPixel_seed_labMean]
  rcases x with ⟨l, a, b⟩
  simp only [Lab.mk.injEq]
  refine ⟨by ring, by ring, by ring⟩

theorem validCount_all (alphaThreshold : ℝ) (data : List Pixel)
    (h : ∀ p ∈ data, ¬ (p.a : ℝ) ≤ alphaThreshold) :
    validCount alphaThreshold data = data.length := by
  unfold validCount
  rw [List.filter_eq_self.mpr fun p hp => decide_eq_true (h p hp)]

theorem detailClusters_percent_nonneg (pixelsValid : ℕ) (areaPerPixel : ℝ)
    (cs : List Cluster) :
    ∀ c ∈ detailClusters pixelsValid areaPerPixel cs, 0 ≤ c.percentValid := by
  intro c hc
  unfold detailClusters at hc
  rcases List.mem_map.mp hc with ⟨c0, _, rfl⟩
  simp only
  split_ifs with h
  · positivity
  · exact le_refl 0

theorem keptOf_all (ps : AnalyzeParams) (ds : List DetailedCluster)
    (h : ∀ c ∈ ds, ps.minAreaPercent ≤ c.percentValid) :
    keptOf ps ds = ds :=
  List.filter_eq_self.mpr fun c hc => decide_eq_true (h c hc)

theorem sortKept_length (ds : List DetailedCluster) :
    (sortKept ds).length = ds.length :=
  (List.mergeSort_perm ds _).length_eq

theorem sortKept_mem (ds : List DetailedCluster) (c : DetailedCluster) :
    c ∈ sortKept ds ↔ c ∈ ds :=
  (List.mergeSort_perm ds _).mem_iff

theorem detailClusters_length (pixelsValid : ℕ) (areaPerPixel : ℝ)
    (cs : List Cluster) :
    (detailClusters pixelsValid areaPerPixel cs).length = cs.length :=
  List.length_map _ _

theorem rpow_third_gt {a q : ℝ} (ha : 0 ≤ a) (h : a ^ (3 : ℕ) < q) :
    a < q ^ ((1 : ℝ) / 3) := by
  have h1 : a = (a ^ (3 : ℕ)) ^ ((1 : ℝ) / 3) := by
    rw [← Real.rpow_natCast a 3, ← Real.rpow_mul ha]
    norm_num
  rw [h1]
  exact Real.rpow_lt_rpow (by positivity) h (by norm_num)

theorem rpow_third_lt {a q : ℝ} (ha : 0 ≤ a) (hq : 0 ≤ q) (h : q < a ^ (3 : ℕ)) :
    q ^ ((1 : ℝ) / 3) < a := by
  have h1 : a = (a ^ (3 : ℕ)) ^ ((1 : ℝ) / 3) := by
    rw [← Real.rpow_natCast a 3, ← Real.rpow_mul ha]
    norm_num
  rw [h1]
  exact Real.rpow_lt_rpow hq h (by norm_num)

theorem srgbToLinear_255 : srgbToLinear 255 = 1 := by
  unfold srgbToLinear
  rw [if_neg (by norm_num)]
  have : ((255 : ℝ) / 255 + 0.055) / 1.055 = 1 := by norm_num
  rw [this, Real.one_rpow]

theorem srgbToLinear_zero : srgbToLinear 0 = 0 := by
  unfold srgbToLinear
  rw [if_pos (by norm_num)]
  norm_num

/-- For channel values at most 10 the linear branch applies. -/
theorem srgbToLinear_small (c : ℝ) (h : c ≤ 10) :
    srgbToLinear c = c / 255 / 12.92 := by
  unfold srgbToLinear
  rw [if_pos (by rw [div_le_iff₀ (by norm_num : (0:ℝ) < 255)]; linarith)]

/-! ### Claim C6: the 2×2 two-red two-blue scenario -/

/-- A 2×2 fully opaque buffer: two red pixels then two blue pixels. -/
def c6data : List Pixel :=
  [⟨255, 0, 0, 255⟩, ⟨255, 0, 0, 255⟩, ⟨0, 0, 255, 255⟩, ⟨0, 0, 255, 255⟩]

/-- The scenario parameters: alphaThreshold 10, tolerance 0, the source's
default minAreaPercent 0.5, and a 2 cm × 2 cm physical box. -/
def c6params : AnalyzeParams := ⟨10, 0, 0.5, 2, 2⟩

theorem redBlue_L_gap : 3 < (rgbToLab 255 0 0).l - (rgbToLab 0 0 255).l := by
  have hLR : (rgbToLab 255 0 0).l = 116 * fLab 0.2126729 - 16 := by
    unfold rgbToLab rgbToXyz xyzToLab
    simp only [srgbToLinear_255, srgbToLinear_zero]
    norm_num
  have hLB : (rgbToLab 0 0 255).l = 116 * fLab 0.0721750 - 16 := by
    unfold rgbToLab rgbToXyz xyzToLab
    simp only [srgbToLinear_255, srgbToLinear_zero]
    norm_num
  have hfR : (0.59 : ℝ) < fLab 0.2126729 := by
    unfold fLab cbrt
    rw [if_pos (by norm_num), if_pos (by norm_num)]
    exact rpow_third_gt (by norm_num) (by norm_num)
  have hfB : fLab 0.0721750 < 0.42 := by
    unfold fLab cbrt
    rw [if_pos (by norm_num), if_pos (by norm_num)]
    exact rpow_third_lt (by norm_num) (by norm_num) (by norm_num)
  rw [hLR, hLB]
  linarith

theorem redBlue_far : ¬ deltaE76 (rgbToLab 0 0 255) (rgbToLab 255 0 0) ≤ 3 := by
  refine not_deltaE76_le_of_lt_dsq (by norm_num) ?_
  have hgap := redBlue_L_gap
  unfold dsq
  nlinarith [mul_self_nonneg ((rgbToLab 0 0 255).a - (rgbToLab 255 0 0).a),
    mul_self_nonneg ((rgbToLab 0 0 255).b - (rgbToLab 255 0 0).b)]

/-- C6: on the 2×2 buffer with two red and two blue opaque pixels, with
tolerance 0, alpha threshold 10 and a 2 cm × 2 cm box, `analyzeImage`
produces exactly 2 clusters, each with 2 pixels, 50 percent of the valid
pixels, and 2.0 cm² of area. -/
theorem scenario_2x2_red_blue :
    (analyzeImage 2 2 c6data c6params).clusters.length = 2 ∧
    ∀ c ∈ (analyzeImage 2 2 c6data c6params).clusters,
      c.pixelCount = 2 ∧ c.percentValid = 50 ∧ c.areaCm2 = 2 := by
  have hcastR : rgbToLab (((255:ℕ) : ℝ)) (((0:ℕ) : ℝ)) (((0:ℕ) : ℝ)) =
      rgbToLab 255 0 0 := by norm_num
  have hcastB : rgbToLab (((0:ℕ) : ℝ)) (((0:ℕ) : ℝ)) (((255:ℕ) : ℝ)) =
      rgbToLab 0 0 255 := by norm_num
  have hna : ¬ (((255:ℕ) : ℝ) ≤ (10 : ℝ)) := by norm_num
  have hd0R : deltaE76 (rgbToLab 255 0 0)
      (seedCluster ⟨255, 0, 0, 255⟩ (rgbToLab 255 0 0)).labMean = 0 := by
    rw [seedCluster_labMean, deltaE76_self]
  -- step 1: first red pixel seeds a cluster
  have s1 : scanStep 10 3 [] (⟨255, 0, 0, 255⟩ : Pixel) =
      [seedCluster ⟨255, 0, 0, 255⟩ (rgbToLab 255 0 0)] := by
    rw [scanStep_first 10 3 _ hna]
    rw [hcastR]
  -- step 2: second red pixel joins it
  have s2 : scanStep 10 3 [seedCluster ⟨255, 0, 0, 255⟩ (rgbToLab 255 0 0)]
      (⟨255, 0, 0, 255⟩ : Pixel) =
      [admitPixel (seedCluster ⟨255, 0, 0, 255⟩ (rgbToLab 255 0 0))
        ⟨255, 0, 0, 255⟩ (rgbToLab 255 0 0)] := by
    have hfb := findBest_one (rgbToLab (((255:ℕ) : ℝ)) (((0:ℕ) : ℝ)) (((0:ℕ) : ℝ)))
      (seedCluster ⟨255, 0, 0, 255⟩ (rgbToLab 255 0 0))
    rw [hcastR] at hfb
    rw [scanStep_accept 10 3 _ _ 0 _ hna (by rw [hcastR]; exact hfb)
      (by rw [hd0R]; norm_num)]
    simp only [modifyAt]
    rw [hcastR]
  -- step 3: first blue pixel is beyond the threshold and seeds a cluster
  have hmeanR : (admitPixel (seedCluster ⟨255, 0, 0, 255⟩ (rgbToLab 255 0 0))
      ⟨255, 0, 0, 255⟩ (rgbToLab 255 0 0)).labMean = rgbToLab 255 0 0 :=
    admitPixel_seed_same_labMean _ _ _
  have hnaB : ¬ (((255:ℕ) : ℝ) ≤ (10 : ℝ)) := hna
  have s3 : scanStep 10 3
      [admitPixel (seedCluster ⟨255, 0, 0, 255⟩ (rgbToLab 255 0 0))
        ⟨255, 0, 0, 255⟩ (rgbToLab 255 0 0)] (⟨0, 0, 255, 255⟩ : Pixel) =
      [admitPixel (seedCluster ⟨255, 0, 0, 255⟩ (rgbToLab 255 0 0))
        ⟨255, 0, 0, 255⟩ (rgbToLab 255 0 0),
       seedCluster ⟨0, 0, 255, 255⟩ (rgbToLab 0 0 255)] := by
    have hfb := findBest_one (rgbToLab 0 0 255)
      (admitPixel (seedCluster ⟨255, 0, 0, 255⟩ (rgbToLab 255 0 0))
        ⟨255, 0, 0, 255⟩ (rgbToLab 255 0 0))
    rw [hmeanR] at hfb
    rw [scanStep_new 10 3 _ _ 0 _ hnaB (by rw [hcastB]; exact hfb) redBlue_far]
    rw [hcastB]
    rfl
  -- step 4: second blue pixel joins the blue cluster
  have hdBB : deltaE76 (rgbToLab 0 0 255)
      (seedCluster ⟨0, 0, 255, 255⟩ (rgbToLab 0 0 255)).labMean = 0 := by
    rw [seedCluster_labMean, deltaE76_self]
  have s4 : scanStep 10 3
      [admitPixel (seedCluster ⟨255, 0, 0, 255⟩ (rgbToLab 255 0 0))
        ⟨255, 0, 0, 255⟩ (rgbToLab 255 0 0),
       seedCluster ⟨0, 0, 255, 255⟩ (rgbToLab 0 0 255)] (⟨0, 0, 255, 255⟩ : Pixel) =
      [admitPixel (seedCluster ⟨255, 0, 0, 255⟩ (rgbToLab 255 0 0))
        ⟨255, 0, 0, 255⟩ (rgbToLab 255 0 0),
       admitPixel (seedCluster ⟨0, 0, 255, 255⟩ (rgbToLab 0 0 255))
        ⟨0, 0, 255, 255⟩ (rgbToLab 0 0 255)] := by
    have hlt : deltaE76 (rgbToLab 0 0 255)
        (seedCluster ⟨0, 0, 255, 255⟩ (rgbToLab 0 0 255)).labMean <
        deltaE76 (rgbToLab 0 0 255)
          (admitPixel (seedCluster ⟨255, 0, 0, 255⟩ (rgbToLab 255 0 0))
            ⟨255, 0, 0, 255⟩ (rgbToLab 255 0 0)).labMean := by
      rw [hdBB, hmeanR]
      exact lt_of_lt_of_le (by norm_num) (le_of_lt (not_le.mp redBlue_far))
    have hfb := findBest_two_snd (rgbToLab 0 0 255)
      (admitPixel (seedCluster ⟨255, 0, 0, 255⟩ (rgbToLab 255 0 0))
        ⟨255, 0, 0, 255⟩ (rgbToLab 255 0 0))
      (seedCluster ⟨0, 0, 255, 255⟩ (rgbToLab 0 0 255)) hlt
    rw [scanStep_accept 10 3 _ _ 1 _ hnaB (by rw [hcastB]; exact hfb)
      (by rw [hdBB]; norm_num)]
    simp only [modifyAt]
    rw [hcastB]
  -- assemble the scan
  have hθ : deltaEThresholdOf c6params.tolerance = 3 := by
    show deltaEThresholdOf 0 = 3
    unfold deltaEThresholdOf
    norm_num
  have hscan : scanClusters c6params.alphaThreshold
      (deltaEThresholdOf c6params.tolerance) c6data =
      [admitPixel (seedCluster ⟨255, 0, 0, 255⟩ (rgbToLab 255 0 0))
        ⟨255, 0, 0, 255⟩ (rgbToLab 255 0 0),
       admitPixel (seedCluster ⟨0, 0, 255, 255⟩ (rgbToLab 0 0 255))
        ⟨0, 0, 255, 255⟩ (rgbToLab 0 0 255)] := by
    rw [hθ]
    show List.foldl (scanStep 10 3) [] c6data = _
    unfold c6data
    simp only [List.foldl_cons, List.foldl_nil]
    rw [s1, s2, s3, s4]
  -- valid pixel count and area scale
  have halpha : ∀ p ∈ c6data, ¬ (p.a : ℝ) ≤ c6params.alphaThreshold := by
    intro p hp
    simp only [c6data, List.mem_cons, List.not_mem_nil, or_false] at hp
    rcases hp with rfl | rfl | rfl | rfl <;> exact hna
  have hvc : validCount c6params.alphaThreshold c6data = 4 :=
    validCount_all _ _ halpha
  have happ : areaPerPixelOf (2 * 2) c6params = 1 := by
    unfold areaPerPixelOf boxAreaOf
    rw [if_pos (by norm_num)]
    show max 0 (2:ℝ) * max 0 2 / ((4:ℕ):ℝ) = 1
    norm_num
  -- the detailed clusters
  have hall : allDetailed 2 2 c6data c6params =
      detailClusters 4 1
        [admitPixel (seedCluster ⟨255, 0, 0, 255⟩ (rgbToLab 255 0 0))
          ⟨255, 0, 0, 255⟩ (rgbToLab 255 0 0),
         admitPixel (seedCluster ⟨0, 0, 255, 255⟩ (rgbToLab 0 0 255))
          ⟨0, 0, 255, 255⟩ (rgbToLab 0 0 255)] := by
    unfold allDetailed
    rw [hscan, hvc, happ]
  have hfields : ∀ c ∈ allDetailed 2 2 c6data c6params,
      c.pixelCount = 2 ∧ c.percentValid = 50 ∧ c.areaCm2 = 2 := by
    intro c hc
    rw [hall] at hc
    unfold detailClusters at hc
    rcases List.mem_map.mp hc with ⟨c0, hc0, rfl⟩
    simp only [List.mem_cons, List.not_mem_nil, or_false] at hc0
    have hcount : c0.count = 2 := by
      rcases hc0 with rfl | rfl <;>
        rw [admitPixel_count, seedCluster_count]
    refine ⟨hcount, ?_, ?_⟩
    · simp only [hcount]
      rw [if_pos (by norm_num)]
      norm_num
    · simp only [hcount]
      norm_num
  have hkept : keptOf c6params (allDetailed 2 2 c6data c6params) =
      allDetailed 2 2 c6data c6params := by
    refine keptOf_all _ _ fun c hc => ?_
    rw [(hfields c hc).2.1]
    show (0.5 : ℝ) ≤ 50
    norm_num
  have hmain := analyzeImage_eq_main 2 2 c6data c6params (by norm_num)
  rw [hmain]
  constructor
  · show (sortKept (keptOf c6params (allDetailed 2 2 c6data c6params))).length = 2
    rw [sortKept_length, hkept, hall, detailClusters_length]
    rfl
  · intro c hc
    have hc' : c ∈ allDetailed 2 2 c6data c6params := by
      rw [← hkept]
      exact (sortKept_mem _ c).mp hc
    exact hfields c hc'

/-! ### Claim C4: tolerance monotonicity -/

/-- A 4×1 buffer of four opaque colors whose channels all stay in the
linear sRGB branch, so their Lab coordinates are exact rationals. -/
def c4data : List Pixel :=
  [⟨1, 6, 8, 255⟩, ⟨10, 8, 4, 255⟩, ⟨0, 1, 9, 255⟩, ⟨10, 10, 0, 255⟩]

/-- Parameters for the tolerance experiment: alphaThreshold 10, the given
tolerance, no minimum-area filtering, no physical box. -/
def c4params (tolerance : ℝ) : AnalyzeParams := ⟨10, tolerance, 0, 0, 0⟩

/-- The exact Lab coordinates of the pixel (1, 6, 8). -/
noncomputable def labC4A : Lab :=
  ⟨1239201699929 / 889542000000, -(232091290990249 / 225462129264000),
   -(2358659016583817 / 1937120031720000)⟩

/-- The exact Lab coordinates of the pixel (10, 8, 4). -/
noncomputable def labC4B : Lab :=
  ⟨992223369637 / 444771000000, -(660820546223 / 19893717288000),
   1644715744099499 / 968560015860000⟩

/-- The exact Lab coordinates of the pixel (0, 1, 9). -/
noncomputable def labC4E1 : Lab :=
  ⟨41605414601 / 111192750000, 71945588179957 / 84548298474000,
   -(27978718882199 / 8968148295000)⟩

/-- The exact Lab coordinates of the pixel (10, 10, 0). -/
noncomputable def labC4E2 : Lab :=
  ⟨11909855981 / 4681800000, -(94055272572277 / 67638638779200),
   733114756955353 / 193712003172000⟩

theorem rgbToLab_c4A :
    rgbToLab (((1:ℕ) : ℝ)) (((6:ℕ) : ℝ)) (((8:ℕ) : ℝ)) = labC4A := by
  have hc : rgbToLab (((1:ℕ) : ℝ)) (((6:ℕ) : ℝ)) (((8:ℕ) : ℝ)) =
      rgbToLab 1 6 8 := by norm_num
  rw [hc]
  unfold labC4A rgbToLab rgbToXyz xyzToLab fLab
  rw [srgbToLinear_small 1 (by norm_num), srgbToLinear_small 6 (by norm_num),
    srgbToLinear_small 8 (by norm_num)]
  norm_num [Lab.mk.injEq]

theorem rgbToLab_c4B :
    rgbToLab (((10:ℕ) : ℝ)) (((8:ℕ) : ℝ)) (((4:ℕ) : ℝ)) = labC4B := by
  have hc : rgbToLab (((10:ℕ) : ℝ)) (((8:ℕ) : ℝ)) (((4:ℕ) : ℝ)) =
      rgbToLab 10 8 4 := by norm_num
  rw [hc]
  unfold labC4B rgbToLab rgbToXyz xyzToLab fLab
  rw [srgbToLinear_small 10 (by norm_num), srgbToLinear_small 8 (by norm_num),
    srgbToLinear_small 4 (by norm_num)]
  norm_num [Lab.mk.injEq]

theorem rgbToLab_c4E1 :
    rgbToLab (((0:ℕ) : ℝ)) (((1:ℕ) : ℝ)) (((9:ℕ) : ℝ)) = labC4E1 := by
  have hc : rgbToLab (((0:ℕ) : ℝ)) (((1:ℕ) : ℝ)) (((9:ℕ) : ℝ)) =
      rgbToLab 0 1 9 := by norm_num
  rw [hc]
  unfold labC4E1 rgbToLab rgbToXyz xyzToLab fLab
  rw [srgbToLinear_small 0 (by norm_num), srgbToLinear_small 1 (by norm_num),
    srgbToLinear_small 9 (by norm_num)]
  norm_num [Lab.mk.injEq]

theorem rgbToLab_c4E2 :
    rgbToLab (((10:ℕ) : ℝ)) (((10:ℕ) : ℝ)) (((0:ℕ) : ℝ)) = labC4E2 := by
  have hc : rgbToLab (((10:ℕ) : ℝ)) (((10:ℕ) : ℝ)) (((0:ℕ) : ℝ)) =
      rgbToLab 10 10 0 := by norm_num
  rw [hc]
  unfold labC4E2 rgbToLab rgbToXyz xyzToLab fLab
  rw [srgbToLinear_small 10 (by norm_num), srgbToLinear_small 0 (by norm_num)]
  norm_num [Lab.mk.injEq]

theorem c4scan_t0 : (scanClusters 10 3 c4data).length = 2 := by
  have hna : ¬ (((255:ℕ) : ℝ) ≤ (10 : ℝ)) := by norm_num
  have s1 : scanStep 10 3 [] (⟨1, 6, 8, 255⟩ : Pixel) =
      [seedCluster ⟨1, 6, 8, 255⟩ labC4A] := by
    rw [scanStep_first 10 3 _ hna, rgbToLab_c4A]
  have hfb2 := findBest_one labC4B (seedCluster ⟨1, 6, 8, 255⟩ labC4A)
  have s2 : scanStep 10 3 [seedCluster ⟨1, 6, 8, 255⟩ labC4A]
      (⟨10, 8, 4, 255⟩ : Pixel) =
      [seedCluster ⟨1, 6, 8, 255⟩ labC4A, seedCluster ⟨10, 8, 4, 255⟩ labC4B] := by
    rw [scanStep_new 10 3 _ _ 0 _ hna (by rw [rgbToLab_c4B]; exact hfb2)
      (by
        rw [seedCluster_labMean]
        exact not_deltaE76_le_of_lt_dsq (by norm_num)
          (by unfold dsq labC4A labC4B; norm_num))]
    rw [rgbToLab_c4B]
    rfl
  have hlt3 : ¬ deltaE76 labC4E1 (seedCluster ⟨10, 8, 4, 255⟩ labC4B).labMean <
      deltaE76 labC4E1 (seedCluster ⟨1, 6, 8, 255⟩ labC4A).labMean := by
    rw [seedCluster_labMean, seedCluster_labMean]
    exact not_deltaE76_lt_of_dsq_le
      (by unfold dsq labC4A labC4B labC4E1; norm_num)
  have hfb3 := findBest_two_fst labC4E1 (seedCluster ⟨1, 6, 8, 255⟩ labC4A)
    (seedCluster ⟨10, 8, 4, 255⟩ labC4B) hlt3
  have s3 : scanStep 10 3
      [seedCluster ⟨1, 6, 8, 255⟩ labC4A, seedCluster ⟨10, 8, 4, 255⟩ labC4B]
      (⟨0, 1, 9, 255⟩ : Pixel) =
      [admitPixel (seedCluster ⟨1, 6, 8, 255⟩ labC4A) ⟨0, 1, 9, 255⟩ labC4E1,
       seedCluster ⟨10, 8, 4, 255⟩ labC4B] := by
    rw [scanStep_accept 10 3 _ _ 0 _ hna (by rw [rgbToLab_c4E1]; exact hfb3)
      (by
        rw [seedCluster_labMean]
        exact deltaE76_le_of_dsq_le (by norm_num)
          (by unfold dsq labC4A labC4E1; norm_num))]
    simp only [modifyAt]
    rw [rgbToLab_c4E1]
  have hmAE1 : (admitPixel (seedCluster ⟨1, 6, 8, 255⟩ labC4A)
      ⟨0, 1, 9, 255⟩ labC4E1).labMean =
      ⟨(labC4A.l + labC4E1.l) / 2, (labC4A.a + labC4E1.a) / 2,
       (labC4A.b + labC4E1.b) / 2⟩ :=
    admitPixel_seed_labMean _ _ _ _
  have hlt4 : deltaE76 labC4E2 (seedCluster ⟨10, 8, 4, 255⟩ labC4B).labMean <
      deltaE76 labC4E2 (admitPixel (seedCluster ⟨1, 6, 8, 255⟩ labC4A)
        ⟨0, 1, 9, 255⟩ labC4E1).labMean := by
    rw [seedCluster_labMean, hmAE1]
    exact deltaE76_lt_of_dsq_lt
      (by unfold dsq labC4A labC4B labC4E1 labC4E2; norm_num)
  have hfb4 := findBest_two_snd labC4E2
    (admitPixel (seedCluster ⟨1, 6, 8, 255⟩ labC4A) ⟨0, 1, 9, 255⟩ labC4E1)
    (seedCluster ⟨10, 8, 4, 255⟩ labC4B) hlt4
  have s4 : scanStep 10 3
      [admitPixel (seedCluster ⟨1, 6, 8, 255⟩ labC4A) ⟨0, 1, 9, 255⟩ labC4E1,
       seedCluster ⟨10, 8, 4, 255⟩ labC4B] (⟨10, 10, 0, 255⟩ : Pixel) =
      [admitPixel (seedCluster ⟨1, 6, 8, 255⟩ labC4A) ⟨0, 1, 9, 255⟩ labC4E1,
       admitPixel (seedCluster ⟨10, 8, 4, 255⟩ labC4B) ⟨10, 10, 0, 255⟩ labC4E2] := by
    rw [scanStep_accept 10 3 _ _ 1 _ hna (by rw [rgbToLab_c4E2]; exact hfb4)
      (by
        rw [seedCluster_labMean]
        exact deltaE76_le_of_dsq_le (by norm_num)
          (by unfold dsq labC4B labC4E2; norm_num))]
    simp only [modifyAt]
    rw [rgbToLab_c4E2]
  show (List.foldl (scanStep 10 3) [] c4data).length = 2
  unfold c4data
  simp only [List.foldl_cons, List.foldl_nil]
  rw [s1, s2, s3, s4]
  rfl

theorem c4scan_t1 : (scanClusters 10 (347 / 100) c4data).length = 3 := by
  have hna : ¬ (((255:ℕ) : ℝ) ≤ (10 : ℝ)) := by norm_num
  have s1 : scanStep 10 (347 / 100) [] (⟨1, 6, 8, 255⟩ : Pixel) =
      [seedCluster ⟨1, 6, 8, 255⟩ labC4A] := by
    rw [scanStep_first 10 (347 / 100) _ hna, rgbToLab_c4A]
  have hfb2 := findBest_one labC4B (seedCluster ⟨1, 6, 8, 255⟩ labC4A)
  have s2 : scanStep 10 (347 / 100) [seedCluster ⟨1, 6, 8, 255⟩ labC4A]
      (⟨10, 8, 4, 255⟩ : Pixel) =
      [admitPixel (seedCluster ⟨1, 6, 8, 255⟩ labC4A) ⟨10, 8, 4, 255⟩ labC4B] := by
    rw [scanStep_accept 10 (347 / 100) _ _ 0 _ hna
      (by rw [rgbToLab_c4B]; exact hfb2)
      (by
        rw [seedCluster_labMean]
        exact deltaE76_le_of_dsq_le (by norm_num)
          (by unfold dsq labC4A labC4B; norm_num))]
    simp only [modifyAt]
    rw [rgbToLab_c4B]
  have hmAB : (admitPixel (seedCluster ⟨1, 6, 8, 255⟩ labC4A)
      ⟨10, 8, 4, 255⟩ labC4B).labMean =
      ⟨(labC4A.l + labC4B.l) / 2, (labC4A.a + labC4B.a) / 2,
       (labC4A.b + labC4B.b) / 2⟩ :=
    admitPixel_seed_labMean _ _ _ _
  have hfb3 := findBest_one labC4E1
    (admitPixel (seedCluster ⟨1, 6, 8, 255⟩ labC4A) ⟨10, 8, 4, 255⟩ labC4B)
  have s3 : scanStep 10 (347 / 100)
      [admitPixel (seedCluster ⟨1, 6, 8, 255⟩ labC4A) ⟨10, 8, 4, 255⟩ labC4B]
      (⟨0, 1, 9, 255⟩ : Pixel) =
      [admitPixel (seedCluster ⟨1, 6, 8, 255⟩ labC4A) ⟨10, 8, 4, 255⟩ labC4B,
       seedCluster ⟨0, 1, 9, 255⟩ labC4E1] := by
    rw [scanStep_new 10 (347 / 100) _ _ 0 _ hna
      (by rw [rgbToLab_c4E1]; exact hfb3)
      (by
        rw [hmAB]
        exact not_deltaE76_le_of_lt_dsq (by norm_num)
          (by unfold dsq labC4A labC4B labC4E1; norm_num))]
    rw [rgbToLab_c4E1]
    rfl
  have hlt4 : ¬ deltaE76 labC4E2 (seedCluster ⟨0, 1, 9, 255⟩ labC4E1).labMean <
      deltaE76 labC4E2 (admitPixel (seedCluster ⟨1, 6, 8, 255⟩ labC4A)
        ⟨10, 8, 4, 255⟩ labC4B).labMean := by
    rw [seedCluster_labMean, hmAB]
    exact not_deltaE76_lt_of_dsq_le
      (by unfold dsq labC4A labC4B labC4E1 labC4E2; norm_num)
  have hfb4 := findBest_two_fst labC4E2
    (admitPixel (seedCluster ⟨1, 6, 8, 255⟩ labC4A) ⟨10, 8, 4, 255⟩ labC4B)
    (seedCluster ⟨0, 1, 9, 255⟩ labC4E1) hlt4
  have s4 : scanStep 10 (347 / 100)
      [admitPixel (seedCluster ⟨1, 6, 8, 255⟩ labC4A) ⟨10, 8, 4, 255⟩ labC4B,
       seedCluster ⟨0, 1, 9, 255⟩ labC4E1] (⟨10, 10, 0, 255⟩ : Pixel) =
      [admitPixel (seedCluster ⟨1, 6, 8, 255⟩ labC4A) ⟨10, 8, 4, 255⟩ labC4B,
       seedCluster ⟨0, 1, 9, 255⟩ labC4E1,
       seedCluster ⟨10, 10, 0, 255⟩ labC4E2] := by
    rw [scanStep_new 10 (347 / 100) _ _ 0 _ hna
      (by rw [rgbToLab_c4E2]; exact hfb4)
      (by
        rw [hmAB]
        exact not_deltaE76_le_of_lt_dsq (by norm_num)
          (by unfold dsq labC4A labC4B labC4E2; norm_num))]
    rw [rgbToLab_c4E2]
    rfl
  show (List.foldl (scanStep 10 (347 / 100)) [] c4data).length = 3
  unfold c4data
  simp only [List.foldl_cons, List.foldl_nil]
  rw [s1, s2, s3, s4]
  rfl

theorem c4_clusters_length (tolerance : ℝ) :
    (analyzeImage 4 1 c4data (c4params tolerance)).clusters.length =
      (scanClusters 10 (deltaEThresholdOf tolerance) c4data).length := by
  rw [analyzeImage_eq_main 4 1 c4data (c4params tolerance) (by norm_num)]
  show (sortKept (keptOf (c4params tolerance)
    (allDetailed 4 1 c4data (c4params tolerance)))).length = _
  rw [sortKept_length]
  have hall : keptOf (c4params tolerance)
      (allDetailed 4 1 c4data (c4params tolerance)) =
      allDetailed 4 1 c4data (c4params tolerance) := by
    refine keptOf_all _ _ fun c hc => ?_
    show (c4params tolerance).minAreaPercent ≤ c.percentValid
    have h0 : (c4params tolerance).minAreaPercent = 0 := rfl
    rw [h0]
    unfold allDetailed at hc
    exact detailClusters_percent_nonneg _ _ _ c hc
  rw [hall]
  unfold allDetailed
  rw [detailClusters_length]
  rfl

/-- Counterexample to C4: on a 4×1 buffer of the opaque colors (1,6,8),
(10,8,4), (0,1,9), (10,10,0), raising the tolerance from 0 to 1 RAISES the
cluster count from 2 to 3: at tolerance 1 the first two colors merge, their
drifted centroid strands the last two pixels, which at tolerance 0 had
joined the separate original clusters. -/
theorem tolerance_monotonicity_cex :
    (0 : ℝ) ≤ 1 ∧ (0 : ℝ) ≤ 0 ∧ (1 : ℝ) ≤ 100 ∧
    (analyzeImage 4 1 c4data (c4params 0)).clusters.length = 2 ∧
    (analyzeImage 4 1 c4data (c4params 1)).clusters.length = 3 ∧
    ¬ ((analyzeImage 4 1 c4data (c4params 1)).clusters.length ≤
        (analyzeImage 4 1 c4data (c4params 0)).clusters.length) := by
  have h0 : (analyzeImage 4 1 c4data (c4params 0)).clusters.length = 2 := by
    rw [c4_clusters_length 0]
    have hθ : deltaEThresholdOf (0 : ℝ) = 3 := by
      unfold deltaEThresholdOf
      norm_num
    rw [hθ]
    exact c4scan_t0
  have h1 : (analyzeImage 4 1 c4data (c4params 1)).clusters.length = 3 := by
    rw [c4_clusters_length 1]
    have hθ : deltaEThresholdOf (1 : ℝ) = 347 / 100 := by
      unfold deltaEThresholdOf
      norm_num
    rw [hθ]
    exact c4scan_t1
  refine ⟨by norm_num, le_refl 0, by norm_num, h0, h1, ?_⟩
  rw [h0, h1]
  norm_num

/-- C4 (amended): the admission threshold is monotone in the tolerance, and
a pixel admitted into an existing cluster at the lower tolerance is, for
the same cluster state, admitted into the same cluster at the higher one;
the end-to-end cluster count of the online scan, however, is not monotone
in the tolerance. -/
theorem tolerance_threshold_monotone (t1 t2 : ℝ) (h : t1 ≤ t2) :
    deltaEThresholdOf t1 ≤ deltaEThresholdOf t2 ∧
    ∀ (alphaThreshold : ℝ) (cs : List Cluster) (p : Pixel) (i : ℕ) (d : ℝ),
      ¬ (p.a : ℝ) ≤ alphaThreshold →
      findBest (rgbToLab p.r p.g p.b) cs = some (i, d) →
      d ≤ deltaEThresholdOf t1 →
      scanStep alphaThreshold (deltaEThresholdOf t1) cs p =
        modifyAt (fun c => admitPixel c p (rgbToLab p.r p.g p.b)) i cs ∧
      scanStep alphaThreshold (deltaEThresholdOf t2) cs p =
        modifyAt (fun c => admitPixel c p (rgbToLab p.r p.g p.b)) i cs := by
  have hth : deltaEThresholdOf t1 ≤ deltaEThresholdOf t2 := by
    unfold deltaEThresholdOf
    linarith
  exact ⟨hth, fun alphaThreshold cs p i d hp hfb hd =>
    ⟨scanStep_accept _ _ _ _ _ _ hp hfb hd,
     scanStep_accept _ _ _ _ _ _ hp hfb (hd.trans hth)⟩⟩

/-- Witness for C4 (amended) at tolerances 0 and 1. -/
theorem tolerance_threshold_monotone_witness :
    (0 : ℝ) ≤ 1 ∧
      (deltaEThresholdOf 0 ≤ deltaEThresholdOf 1 ∧
        ∀ (alphaThreshold : ℝ) (cs : List Cluster) (p : Pixel) (i : ℕ) (d : ℝ),
          ¬ (p.a : ℝ) ≤ alphaThreshold →
          findBest (rgbToLab p.r p.g p.b) cs = some (i, d) →
          d ≤ deltaEThresholdOf 0 →
          scanStep alphaThreshold (deltaEThresholdOf 0) cs p =
            modifyAt (fun c => admitPixel c p (rgbToLab p.r p.g p.b)) i cs ∧
          scanStep alphaThreshold (deltaEThresholdOf 1) cs p =
            modifyAt (fun c => admitPixel c p (rgbToLab p.r p.g p.b)) i cs) :=
  ⟨by norm_num, tolerance_threshold_monotone 0 1 (by norm_num)⟩

/-- C10: `deltaE76` is symmetric, nonnegative, and zero on equal inputs, so a
pixel whose Lab value coincides with a cluster centroid passes any
nonnegative admission threshold. -/
theorem deltaE76_metric_properties (x y : Lab) (θ : ℝ) (hθ : 0 ≤ θ) :
    deltaE76 x y = deltaE76 y x ∧ 0 ≤ deltaE76 x y ∧ deltaE76 x x = 0 ∧
      deltaE76 x x ≤ θ := by
  have hsym : deltaE76 x y = deltaE76 y x := by
    unfold deltaE76
    ring_nf
  have hzero : deltaE76 x x = 0 := by
    unfold deltaE76
    simp
  refine ⟨hsym, Real.sqrt_nonneg _, hzero, ?_⟩
  rw [hzero]; exact hθ

/-- Witness for C10 at a concrete Lab point and threshold. -/
theorem deltaE76_metric_properties_witness :
    (0 : ℝ) ≤ 0 ∧
      (deltaE76 ⟨0, 0, 0⟩ ⟨1, 2, 3⟩ = deltaE76 ⟨1, 2, 3⟩ ⟨0, 0, 0⟩ ∧
        0 ≤ deltaE76 ⟨0, 0, 0⟩ ⟨1, 2, 3⟩ ∧ deltaE76 ⟨0, 0, 0⟩ ⟨0, 0, 0⟩ = 0 ∧
        deltaE76 ⟨0, 0, 0⟩ ⟨0, 0, 0⟩ ≤ 0) :=
  ⟨le_refl 0, deltaE76_metric_properties ⟨0, 0, 0⟩ ⟨1, 2, 3⟩ 0 (le_refl 0)⟩

end TuftCalc
